import Mathlib
set_option maxRecDepth 8000

/-!
Verification of the watch-party session server.

This file gives a shallow embedding, in Lean, of the in-memory session
engine of the repository:

* `WatchParty` models `src/server.js`: the room registry (`createRoom`,
  `joinRoom`, `leaveRoom`), the per-room command handlers (`handleJoin`,
  `handleChatMessage`, `handlePlaybackUpdate`, `handleSyncRequest`,
  `handleParticipantsRequest`, `handleLeave`), the connection close
  handler, the heartbeat sweeper and the periodic cleanup, together with
  an event-based small-step semantics (`stepS`) and the reachable states
  of the server (`run` / `Reachable`).

* `ChatServer` models the direct-chat service (the unnamed source file
  with `handlePrivateMessage`): the presence registries `onlineUsers` and
  `userSockets`, the connection accept/close handlers, and the
  private-message delivery path.

JavaScript `Map`s are modelled as insertion-ordered association lists
(updating an existing key keeps its position, exactly as ECMAScript
`Map.set` does), `Date.now()` is threaded through events as an explicit
`now : Nat`, and the opaque durable store is modelled by its outputs
(the server-assigned message id is an input of the event that needs it).
JS numbers that the engine only stores and forwards are embedded as
`Int`; ids that the engine itself increments are `Nat`.
-/

/-! ## Insertion-ordered association lists (ECMAScript `Map` semantics) -/

/-- ASCII upper-casing of one character. -/

def upChar (c : Char) : Char :=
  if 'a' ≤ c ∧ c ≤ 'z' then Char.ofNat (c.toNat - 32) else c

/-- JS `String.prototype.toUpperCase` on the identifiers used here. -/

def jsToUpperCase (s : String) : String := String.mk (s.data.map upChar)

/-- JS `String.prototype.trim`: strip leading and trailing whitespace. -/

def jsTrim (s : String) : String :=
  String.mk (((s.data.dropWhile Char.isWhitespace).reverse.dropWhile Char.isWhitespace).reverse)

/-- `Map.get`: value of the first (and only) entry with the given key. -/

def alistGet [BEq κ] (l : List (κ × α)) (k : κ) : Option α :=
  (l.find? (fun e => e.1 == k)).map (·.2)

/-- `Map.set`: replace in place when the key is present (keeping its
insertion position), otherwise append. -/

def alistSet [BEq κ] (l : List (κ × α)) (k : κ) (v : α) : List (κ × α) :=
  match l with
  | [] => [(k, v)]
  | e :: rest => if e.1 == k then (k, v) :: rest else e :: alistSet rest k v

/-- `Map.delete`: drop the entry with the given key. -/

def alistDelete [BEq κ] (l : List (κ × α)) (k : κ) : List (κ × α) :=
  l.filter (fun e => !(e.1 == k))

namespace ChatServer

/-! ## The direct-chat service

Embedding of the unnamed chat source file: presence registries, the
connection accept and close handlers, and `handlePrivateMessage`.
The MySQL store is opaque: the id assigned by the `INSERT` is an input
of the private-message event, and on-connect pending replay (which only
reads the store and pushes frames) is outside the state modelled here. -/

/-- Entry of `onlineUsers`: `onlineUsers.set(userId, { ws, username, userId })`.
Note a single socket is recorded, the one of the most recent connection. -/

structure OnlineUser where
  wsId : Nat
  username : String
  userId : Int
deriving DecidableEq, Repr

/-- The per-connection closure variables (`userId`, `username`) of an
accepted chat session, keyed by its socket. -/

structure ChatConn where
  userId : Int
  username : String
deriving DecidableEq, Repr

structure CState where
  onlineUsers : List (Int × OnlineUser)
  userSockets : List (Int × List Nat)
  conns : List (Nat × ChatConn)
deriving DecidableEq, Repr

def cinit : CState := ⟨[], [], []⟩

/-- Server → client frames of the chat service. -/

inductive CFrame where
  | connectedC (userId : Int) (username : String)
  | privateMessage (from_user_id : Int) (from_username : String)
      (to_user_id : Int) (message : String) (message_id : Nat) (timestamp : Nat)
  | friendRequest (from_user_id : Int) (from_username : String)
      (to_user_id : Int) (timestamp : Nat)
  | friendRequestResponse (request_id : Int) (from_user_id : Int)
      (to_user_id : Int) (status : String) (timestamp : Nat)
  | pongC
deriving DecidableEq, Repr

/-- Result of the connection gateway for a new chat socket. -/

inductive ConnectOutcome where
  | closed (code : Nat) (reason : String)
  | accepted
deriving DecidableEq, Repr

/-- Numeric value of a single digit character, as `parseInt` sees it. -/

def hexDigitVal (c : Char) : Option Nat :=
  if c.isDigit then some (c.toNat - '0'.toNat)
  else if 'a' ≤ c ∧ c ≤ 'f' then some (c.toNat - 'a'.toNat + 10)
  else if 'A' ≤ c ∧ c ≤ 'F' then some (c.toNat - 'A'.toNat + 10)
  else none

/-- Accumulate the longest valid digit run; `none` when no digit was
consumed (`parseInt` yields `NaN` there). -/

def parseDigits (base : Nat) : List Char → Option Nat → Option Nat
  | [], acc => acc
  | c :: cs, acc =>
    match hexDigitVal c with
    | some d => if d < base then parseDigits base cs (some ((acc.getD 0) * base + d)) else acc
    | none => acc

/-- ECMAScript `parseInt(s)` with no radix argument: skip whitespace,
optional sign, `0x`/`0X` selects base 16, then the longest digit run;
`none` models `NaN`. -/

def jsParseInt (s : String) : Option Int :=
  let cs := s.toList.dropWhile (fun c => c.isWhitespace)
  let signed : Bool × List Char :=
    match cs with
    | '-' :: rest => (true, rest)
    | '+' :: rest => (false, rest)
    | _ => (false, cs)
  let based : Nat × List Char :=
    match signed.2 with
    | '0' :: 'x' :: rest => (16, rest)
    | '0' :: 'X' :: rest => (16, rest)
    | _ => (10, signed.2)
  match parseDigits based.1 based.2 none with
  | none => none
  | some n => some (if signed.1 then -(n : Int) else (n : Int))

/-- The `wss.on('connection')` handler of the chat endpoint:
`const userId = parseInt(query.user)`; a falsy result (`NaN` or `0`)
closes the socket with code 1008, otherwise the session is attached to
`onlineUsers` and `userSockets`. `decodeURIComponent` is the identity on
the identifiers considered here; an absent `username` falls back to
`"Usuario"`. -/

def chatConnect (s : CState) (ws : Nat) (userParam usernameParam : String) :
    CState × ConnectOutcome × List (Nat × CFrame) :=
  let username := if usernameParam = "" then "Usuario" else usernameParam
  match jsParseInt userParam with
  | none => (s, ConnectOutcome.closed 1008 "ID de usuario requerido", [])
  | some uid =>
    if uid = 0 then
      (s, ConnectOutcome.closed 1008 "ID de usuario requerido", [])
    else
      let sockets :=
        match alistGet s.userSockets uid with
        | none => [ws]
        | some l => if l.contains ws then l else l ++ [ws]
      let s' : CState :=
        { onlineUsers := alistSet s.onlineUsers uid ⟨ws, username, uid⟩
          userSockets := alistSet s.userSockets uid sockets
          conns := alistSet s.conns ws ⟨uid, username⟩ }
      (s', ConnectOutcome.accepted, [(ws, CFrame.connectedC uid username)])

/-- `handlePrivateMessage`: after the store insert assigns `messageId`,
the frame is pushed to `onlineUsers.get(to_user_id).ws` when that
registry has the receiver; `userSockets` is not consulted. -/

def handlePrivateMessage (s : CState) (senderId : Int) (senderName : String)
    (to_user_id : Int) (messageText : String) (clientTs : Option Nat)
    (messageId : Nat) (now : Nat) : List (Nat × CFrame) :=
  match alistGet s.onlineUsers to_user_id with
  | none => []
  | some receiver =>
    let ts := match clientTs with
      | some t => if t == 0 then now else t
      | none => now
    [(receiver.wsId, CFrame.privateMessage senderId senderName to_user_id messageText messageId ts)]

/-- The chat socket close handler: drop the socket from the user's set;
when the set empties, the user leaves both registries. -/

def chatClose (s : CState) (ws : Nat) : CState :=
  match alistGet s.conns ws with
  | none => s
  | some c =>
    let s1 : CState := { s with conns := alistDelete s.conns ws }
    match alistGet s1.userSockets c.userId with
    | none => s1
    | some l =>
      let l' := l.filter (fun w => !(w == ws))
      if l'.isEmpty then
        { s1 with userSockets := alistDelete s1.userSockets c.userId
                  onlineUsers := alistDelete s1.onlineUsers c.userId }
      else
        { s1 with userSockets := alistSet s1.userSockets c.userId l' }

/-- Events of the chat service; `dbOk` is whether the store insert
succeeded (a failure is caught and the delivery skipped), `messageId`
the id the store assigned. -/

inductive CEvent where
  | cconnect (ws : Nat) (userParam usernameParam : String)
  | cpriv (ws : Nat) (to_user_id : Int) (text : String)
      (clientTs : Option Nat) (messageId : Nat) (dbOk : Bool) (now : Nat)
  | cclose (ws : Nat)
deriving DecidableEq, Repr

def cstep (s : CState) (e : CEvent) : CState × List (Nat × CFrame) :=
  match e with
  | CEvent.cconnect ws u un =>
    let r := chatConnect s ws u un
    (r.1, r.2.2)
  | CEvent.cpriv ws toUid text ts mid dbOk now =>
    match alistGet s.conns ws with
    | none => (s, [])
    | some c => (s, if dbOk then handlePrivateMessage s c.userId c.username toUid text ts mid now else [])
  | CEvent.cclose ws => (chatClose s ws, [])

def crun (es : List CEvent) : CState :=
  es.foldl (fun s e => (cstep s e).1) cinit

/-- User 2 opens two chat sessions (sockets 1 and 2), then user 1
connects on socket 3. -/

def multiSessionTrace : List CEvent := [
  CEvent.cconnect 1 "2" "X",
  CEvent.cconnect 2 "2" "X",
  CEvent.cconnect 3 "1" "S" ]

end ChatServer

namespace WatchParty

/-! ## The watch-party server (`src/server.js`)

Data model: `rooms : Map roomCode -> Room`, `connections : Map ws -> info`.
The room's `participants` is a `Map userId -> participant`, modelled as an
insertion-ordered list whose entries carry their own key; `uuidv4()` is
modelled by a fresh-id supply `nextRid`. The state additionally carries
two append-only audit logs, `chatLog` and `pbLog`, recording every chat
message and playback event a room instance ever appended; they influence
nothing and exist to state history properties. -/

/-- Entry of `room.participants`: `{ ws, userId, username, joinedAt,
lastSeen, isHost }`. User ids on this endpoint are the raw `query.user`
strings (no `parseInt` here). -/

structure Participant where
  wsId : Nat
  userId : String
  username : String
  joinedAt : Nat
  lastSeen : Nat
  isHost : Bool
deriving DecidableEq, Repr

structure ChatMsg where
  id : Nat
  user_id : String
  username : String
  message : String
  timestamp : Nat
deriving DecidableEq, Repr

structure PlaybackEvent where
  user_id : String
  current_time : Int
  is_playing : Bool
  timestamp : Nat
deriving DecidableEq, Repr

/-- A room as built by `createRoom`. Playback position is a JS number the
engine only stores and forwards; it is embedded as `Int`. -/

structure Room where
  rid : Nat
  room_code : String
  room_name : String
  host_user_id : String
  host_username : String
  video_id : String
  max_participants : Nat
  is_private : Bool
  created_at : Nat
  video_current_time : Int
  is_playing : Bool
  participants : List Participant
  messages : List ChatMsg
  playbackHistory : List PlaybackEvent
  lastMessageId : Nat
deriving DecidableEq, Repr

/-- `connections` entry. `isHost` is written by `handleJoin`; `isAlive`
is the field the heartbeat sweeper reads — the source never initializes
it (`none` models the absent property). `localAlive` is the `isAlive`
local variable of the connection closure, the one the `pong` listener
sets. -/

structure Conn where
  roomCode : String
  userId : String
  username : String
  isHost : Option Bool
  isAlive : Option Bool
  localAlive : Bool
deriving DecidableEq, Repr

structure ServerState where
  rooms : List (String × Room)
  connections : List (Nat × Conn)
  sockets : List Nat
  nextRid : Nat
  chatLog : List (Nat × ChatMsg)
  pbLog : List (Nat × PlaybackEvent)
deriving DecidableEq, Repr

def initState : ServerState := ⟨[], [], [], 0, [], []⟩

/-- `room.participants.set(userId, participant)` — in-place update when
the user id is present, append otherwise. -/

def participantsSet (l : List Participant) (p : Participant) : List Participant :=
  match l with
  | [] => [p]
  | q :: rest => if q.userId == p.userId then p :: rest else q :: participantsSet rest p

def participantsGet (l : List Participant) (uid : String) : Option Participant :=
  l.find? (fun q => q.userId == uid)

def participantsDelete (l : List Participant) (uid : String) : List Participant :=
  l.filter (fun q => !(q.userId == uid))

/-- The fields of the room snapshot sent in a `room_joined` frame. -/

structure RoomView where
  room_code : String
  room_name : String
  host_user_id : String
  host_username : String
  video_id : String
  max_participants : Nat
  is_private : Bool
  video_current_time : Int
  is_playing : Bool
  created_at : Nat
deriving DecidableEq, Repr

def roomView (r : Room) : RoomView :=
  ⟨r.room_code, r.room_name, r.host_user_id, r.host_username, r.video_id,
   r.max_participants, r.is_private, r.video_current_time, r.is_playing, r.created_at⟩

/-- One entry of `getRoomParticipants` output. -/

structure PartView where
  user_id : String
  username : String
  isHost : Bool
  joined_at : Nat
  last_seen : Nat
deriving DecidableEq, Repr

/-- Server → client frames of the watch-party endpoint. -/

inductive Frame where
  | errorF (message : String)
  | connectedF (room : String) (userId username : String)
  | roomJoined (room : RoomView) (userId username : String) (isHost : Bool)
  | userJoined (user_id username : String) (isHost : Bool) (timestamp : Nat)
  | participantsUpdate (participants : List PartView)
  | participantsList (participants : List PartView)
  | chatMessageF (m : ChatMsg)
  | chatHistory (messages : List ChatMsg)
  | playbackSync (current_time : Int) (is_playing : Bool) (timestamp : Nat)
  | playbackUpd (user_id username event_type : String)
      (current_time : Int) (is_playing : Bool) (timestamp : Nat)
  | userLeft (user_id username : String) (timestamp : Nat)
  | systemMessage (message : String) (timestamp : Nat)
deriving DecidableEq, Repr

/-- The `exclude` argument of `broadcastToRoom`: the source compares it
against both the participant's map key and its socket. -/

inductive Exclude where
  | noneEx
  | byWs (w : Nat)
  | byUser (u : String)
deriving DecidableEq, Repr

def Exclude.matches : Exclude → Participant → Bool
  | Exclude.noneEx, _ => false
  | Exclude.byWs w, p => w == p.wsId
  | Exclude.byUser u, p => u == p.userId

/-- `broadcastToRoom(roomCode, message, exclude)`: one send per
participant whose transport is open (`readyState === 1`), skipping the
excluded participant. -/

def broadcastToRoom (rs : List (String × Room)) (socks : List Nat)
    (code : String) (f : Frame) (ex : Exclude) : List (Nat × Frame) :=
  match alistGet rs code with
  | none => []
  | some room =>
    room.participants.filterMap (fun p =>
      if ex.matches p then none
      else if socks.contains p.wsId then some (p.wsId, f) else none)

/-- `getRoomParticipants(roomCode)`; `last_seen` is freshly stamped. -/

def getRoomParticipants (rs : List (String × Room)) (code : String) (now : Nat) :
    List PartView :=
  match alistGet rs code with
  | none => []
  | some room =>
    room.participants.map (fun p => ⟨p.userId, p.username, p.isHost, p.joinedAt, now⟩)

/-- `slice(-n)`: the last `n` elements. -/

def lastN (n : Nat) (l : List α) : List α := l.drop (l.length - n)

/-- `createRoom`: a fresh room with the caller as host; an empty
`roomName` (JS falsy) falls back to a host-derived default. -/

def createRoom (s : ServerState) (roomCode roomName hostUserId hostUsername videoId : String)
    (maxParticipants : Nat) (isPrivate : Bool) (now : Nat) : ServerState × Room :=
  let room : Room :=
    { rid := s.nextRid
      room_code := roomCode
      room_name := if roomName = "" then "Sala de " ++ hostUsername else roomName
      host_user_id := hostUserId
      host_username := hostUsername
      video_id := videoId
      max_participants := maxParticipants
      is_private := isPrivate
      created_at := now
      video_current_time := 0
      is_playing := false
      participants := []
      messages := []
      playbackHistory := []
      lastMessageId := 0 }
  ({ s with rooms := alistSet s.rooms roomCode room, nextRid := s.nextRid + 1 }, room)

/-- Outcome of `joinRoom`. -/

inductive JoinOutcome where
  | notFound
  | err (message : String)
  | ok (rooms : List (String × Room)) (room : Room) (participant : Participant) (isHost : Bool)

/-- `joinRoom(roomCode, userId, username, ws, isCreating)`: capacity
check, then host-flag computation `isCreating || host_user_id === userId`;
when `isCreating` the room's host fields are (re)assigned to the caller. -/

def joinRoom (rs : List (String × Room)) (roomCode userId username : String)
    (ws : Nat) (isCreating : Bool) (now : Nat) : JoinOutcome :=
  match alistGet rs roomCode with
  | none => JoinOutcome.notFound
  | some room =>
    if room.max_participants ≤ room.participants.length then
      JoinOutcome.err "La sala está llena"
    else
      let isHost := isCreating || (room.host_user_id == userId)
      let participant : Participant := ⟨ws, userId, username, now, now, isHost⟩
      let room1 := if isCreating then
          { room with host_user_id := userId, host_username := username }
        else room
      let room2 := { room1 with participants := participantsSet room1.participants participant }
      JoinOutcome.ok (alistSet rs roomCode room2) room2 participant isHost

/-- `leaveRoom(roomCode, userId)`: remove the participant; when the
departing participant carried the host flag and others remain, the first
remaining participant in map insertion order is promoted and a system
message is broadcast. Returns the new room table, the sends, and the
`true/false` result of the source function. -/

def leaveRoom (rs : List (String × Room)) (socks : List Nat)
    (roomCode userId username : String) (now : Nat) :
    List (String × Room) × List (Nat × Frame) × Bool :=
  match alistGet rs roomCode with
  | none => (rs, [], false)
  | some room =>
    match participantsGet room.participants userId with
    | none => (rs, [], false)
    | some participant =>
      let remaining := participantsDelete room.participants userId
      match remaining, participant.isHost with
      | newHost :: rest, true =>
        let promoted := { newHost with isHost := true }
        let room' := { room with
          participants := promoted :: rest
          host_user_id := newHost.userId
          host_username := newHost.username }
        let rs' := alistSet rs roomCode room'
        let sends := broadcastToRoom rs' socks roomCode
          (Frame.systemMessage (newHost.username ++ " es ahora el anfitrión") now)
          Exclude.noneEx
        (rs', sends, true)
      | _, _ =>
        (alistSet rs roomCode { room with participants := remaining }, [], true)

/-- `connections.get(ws).isHost = ...` after a successful join. -/

def connSetHost (cs : List (Nat × Conn)) (ws : Nat) (h : Bool) : List (Nat × Conn) :=
  cs.map (fun e => if e.1 == ws then (e.1, { e.2 with isHost := some h }) else e)

/-- The `join` message payload. An empty `room_name`/`video_id` models an
absent field; `max_participants = 0` models an absent (or zero) value,
which `|| 10` turns into the default. -/

structure JoinMsg where
  create : Bool
  room_name : String
  video_id : String
  max_participants : Nat
  is_private : Bool
deriving DecidableEq, Repr

/-- The tail of `handleJoin` once creation/privacy gating has been
resolved: call `joinRoom`, report errors, otherwise stamp the
connection's host flag and emit the join fan-out. -/

def handleJoinCore (s : ServerState) (ws : Nat) (conn : Conn) (m : JoinMsg) (now : Nat) :
    ServerState × List (Nat × Frame) :=
  match joinRoom s.rooms conn.roomCode conn.userId conn.username ws m.create now with
  | JoinOutcome.err msg => (s, [(ws, Frame.errorF msg)])
  | JoinOutcome.notFound => (s, [])
  | JoinOutcome.ok rooms' room2 _ isHost =>
    let s' : ServerState :=
      { s with rooms := rooms', connections := connSetHost s.connections ws isHost }
    let partsUpd := Frame.participantsUpdate (getRoomParticipants s'.rooms conn.roomCode now)
    let sends :=
      [(ws, Frame.roomJoined (roomView room2) conn.userId conn.username isHost)]
      ++ broadcastToRoom s'.rooms s.sockets conn.roomCode
           (Frame.userJoined conn.userId conn.username isHost now) (Exclude.byWs ws)
      ++ [(ws, partsUpd)]
      ++ broadcastToRoom s'.rooms s.sockets conn.roomCode partsUpd (Exclude.byWs ws)
      ++ (if 0 < room2.messages.length
          then [(ws, Frame.chatHistory (lastN 50 room2.messages))] else [])
      ++ [(ws, Frame.playbackSync room2.video_current_time room2.is_playing now)]
    (s', sends)

/-- `handleJoin`: lazily create the room when absent and `create` is set,
refuse non-existent rooms otherwise, refuse private rooms joined without
the `create` flag, then delegate to `joinRoom`. -/

def handleJoin (s : ServerState) (ws : Nat) (conn : Conn) (m : JoinMsg) (now : Nat) :
    ServerState × List (Nat × Frame) :=
  match alistGet s.rooms conn.roomCode with
  | none =>
    if m.create then
      let s1 := (createRoom s conn.roomCode m.room_name conn.userId conn.username
        m.video_id (if m.max_participants = 0 then 10 else m.max_participants)
        m.is_private now).1
      handleJoinCore s1 ws conn m now
    else
      (s, [(ws, Frame.errorF "La sala no existe")])
  | some room =>
    if room.is_private && !m.create then
      (s, [(ws, Frame.errorF "Esta sala es privada. Necesitas una invitación para unirte.")])
    else
      handleJoinCore s ws conn m now

/-- `handleChatMessage`: require a room, a non-empty trimmed body and a
participant sender; append with the next message id (capping the history
at 200, oldest evicted) and broadcast to every participant, the sender
included. -/

def handleChatMessage (s : ServerState) (roomCode userId username : String)
    (text : String) (now : Nat) : ServerState × List (Nat × Frame) :=
  match alistGet s.rooms roomCode with
  | none => (s, [])
  | some room =>
    if jsTrim text = "" then (s, [])
    else
      match participantsGet room.participants userId with
      | none => (s, [])
      | some _ =>
        let msg : ChatMsg := ⟨room.lastMessageId + 1, userId, username, jsTrim text, now⟩
        let msgs1 := room.messages ++ [msg]
        let msgs2 := if 200 < msgs1.length then lastN 200 msgs1 else msgs1
        let room' := { room with lastMessageId := room.lastMessageId + 1, messages := msgs2 }
        let rooms' := alistSet s.rooms roomCode room'
        let s' := { s with rooms := rooms', chatLog := s.chatLog ++ [(room.rid, msg)] }
        (s', broadcastToRoom rooms' s.sockets roomCode (Frame.chatMessageF msg) Exclude.noneEx)

/-- `handlePlaybackUpdate`: no participant check — any connection whose
closure names an existing room updates it. The playback history is
capped at 50; the broadcast excludes the sender by user id. -/

def handlePlaybackUpdate (s : ServerState) (roomCode userId username : String)
    (current_time : Int) (is_playing : Bool) (event_type : String) (now : Nat) :
    ServerState × List (Nat × Frame) :=
  match alistGet s.rooms roomCode with
  | none => (s, [])
  | some room =>
    let ev : PlaybackEvent := ⟨userId, current_time, is_playing, now⟩
    let hist1 := room.playbackHistory ++ [ev]
    let hist2 := if 50 < hist1.length then lastN 50 hist1 else hist1
    let room' := { room with
      video_current_time := current_time
      is_playing := is_playing
      playbackHistory := hist2 }
    let rooms' := alistSet s.rooms roomCode room'
    let s' := { s with rooms := rooms', pbLog := s.pbLog ++ [(room.rid, ev)] }
    let et := if event_type = "" then "update" else event_type
    (s', broadcastToRoom rooms' s.sockets roomCode
      (Frame.playbackUpd userId username et current_time is_playing now)
      (Exclude.byUser userId))

def handleSyncRequest (s : ServerState) (ws : Nat) (roomCode : String) (now : Nat) :
    List (Nat × Frame) :=
  match alistGet s.rooms roomCode with
  | none => []
  | some room => [(ws, Frame.playbackSync room.video_current_time room.is_playing now)]

def handleParticipantsRequest (s : ServerState) (ws : Nat) (roomCode : String) (now : Nat) :
    List (Nat × Frame) :=
  [(ws, Frame.participantsList (getRoomParticipants s.rooms roomCode now))]

/-- `handleLeave`: `leaveRoom`, then `user_left` and `participants_update`
broadcasts when the leave happened. -/

def handleLeave (s : ServerState) (roomCode userId username : String) (now : Nat) :
    ServerState × List (Nat × Frame) :=
  match alistGet s.rooms roomCode with
  | none => (s, [])
  | some _ =>
    let r := leaveRoom s.rooms s.sockets roomCode userId username now
    let s' := { s with rooms := r.1 }
    if r.2.2 then
      let sends2 := broadcastToRoom r.1 s.sockets roomCode
        (Frame.userLeft userId username now) Exclude.noneEx
      let sends3 := broadcastToRoom r.1 s.sockets roomCode
        (Frame.participantsUpdate (getRoomParticipants r.1 roomCode now)) Exclude.noneEx
      (s', r.2.1 ++ sends2 ++ sends3)
    else (s', r.2.1)

/-- The `ws.on('close')` handler: the transport is closed first, then
the handler removes the participant (running `leaveRoom`) and, when the
room survives, notifies the remaining participants. -/

def closeHandler (s : ServerState) (ws : Nat) (now : Nat) :
    ServerState × List (Nat × Frame) :=
  let socks' := s.sockets.filter (fun w => !(w == ws))
  match alistGet s.connections ws with
  | none => ({ s with sockets := socks' }, [])
  | some ci =>
    let r := leaveRoom s.rooms socks' ci.roomCode ci.userId ci.username now
    let s' : ServerState :=
      { s with rooms := r.1, connections := alistDelete s.connections ws, sockets := socks' }
    if r.2.2 then
      match alistGet r.1 ci.roomCode with
      | none => (s', r.2.1)
      | some room =>
        let sends2 := broadcastToRoom r.1 socks' room.room_code
          (Frame.userLeft ci.userId ci.username now) (Exclude.byWs ws)
        let sends3 := broadcastToRoom r.1 socks' room.room_code
          (Frame.participantsUpdate (getRoomParticipants r.1 room.room_code now)) Exclude.noneEx
        (s', r.2.1 ++ sends2 ++ sends3)
    else (s', r.2.1)

/-- Events driving the watch-party server: one per inbound frame kind
that reaches `handleMessage`, plus gateway connection, transport close,
pong receipt, the heartbeat sweeper tick, the deferred empty-room
deletion scheduled by `leaveRoom`, and the periodic cleanup tick. -/

inductive Event where
  | wconnect (ws : Nat) (roomParam userParam usernameParam : String) (now : Nat)
  | wjoin (ws : Nat) (m : JoinMsg) (now : Nat)
  | wchat (ws : Nat) (text : String) (now : Nat)
  | wplayback (ws : Nat) (current_time : Int) (is_playing : Bool)
      (event_type : String) (now : Nat)
  | wsync (ws : Nat) (now : Nat)
  | wparticipants (ws : Nat) (now : Nat)
  | wleave (ws : Nat) (now : Nat)
  | wclose (ws : Nat) (now : Nat)
  | wpong (ws : Nat) (now : Nat)
  | wheartbeat (now : Nat)
  | wdeferredDelete (roomCode : String)
  | wsweep (now : Nat)
deriving DecidableEq, Repr

/-- One step of the server. Message events on a socket with no registered
connection have no handler and do nothing. -/

def stepS (s : ServerState) (e : Event) : ServerState × List (Nat × Frame) :=
  match e with
  | Event.wconnect ws roomParam userParam usernameParam _ =>
    let roomCode := jsToUpperCase roomParam
    let username := if usernameParam = "" then "Usuario" else usernameParam
    if roomCode = "" ∨ userParam = "" then
      (s, [])
    else
      ({ s with
          connections := alistSet s.connections ws
            ⟨roomCode, userParam, username, none, none, true⟩
          sockets := if s.sockets.contains ws then s.sockets else ws :: s.sockets },
       [(ws, Frame.connectedF roomCode userParam username)])
  | Event.wjoin ws m now =>
    match alistGet s.connections ws with
    | none => (s, [])
    | some conn => handleJoin s ws conn m now
  | Event.wchat ws text now =>
    match alistGet s.connections ws with
    | none => (s, [])
    | some conn => handleChatMessage s conn.roomCode conn.userId conn.username text now
  | Event.wplayback ws ct ip et now =>
    match alistGet s.connections ws with
    | none => (s, [])
    | some conn => handlePlaybackUpdate s conn.roomCode conn.userId conn.username ct ip et now
  | Event.wsync ws now =>
    match alistGet s.connections ws with
    | none => (s, [])
    | some conn => (s, handleSyncRequest s ws conn.roomCode now)
  | Event.wparticipants ws now =>
    match alistGet s.connections ws with
    | none => (s, [])
    | some conn => (s, handleParticipantsRequest s ws conn.roomCode now)
  | Event.wleave ws now =>
    match alistGet s.connections ws with
    | none => (s, [])
    | some conn => handleLeave s conn.roomCode conn.userId conn.username now
  | Event.wclose ws now => closeHandler s ws now
  | Event.wpong ws _ =>
    ({ s with connections := s.connections.map (fun e =>
        if e.1 == ws then (e.1, { e.2 with localAlive := true }) else e) }, [])
  | Event.wheartbeat _ =>
    let survivors := s.connections.filterMap (fun e =>
      if e.2.isAlive == some true then some (e.1, { e.2 with isAlive := some false }) else none)
    let terminated := s.connections.filterMap (fun e =>
      if e.2.isAlive == some true then none else some e.1)
    ({ s with connections := survivors,
              sockets := s.sockets.filter (fun w => !(terminated.contains w)) }, [])
  | Event.wdeferredDelete code =>
    match alistGet s.rooms code with
    | some room =>
      if room.participants.isEmpty then
        ({ s with rooms := alistDelete s.rooms code }, [])
      else (s, [])
    | none => (s, [])
  | Event.wsweep now =>
    ({ s with
        connections := s.connections.filter (fun e => s.sockets.contains e.1)
        rooms := s.rooms.filter (fun e =>
          !(e.2.participants.isEmpty && decide (600000 < now - e.2.created_at))) }, [])

def run (es : List Event) : ServerState :=
  es.foldl (fun s e => (stepS s e).1) initState

def Reachable (s : ServerState) : Prop := ∃ es, run es = s

/-! ## Concrete traces used to separate the spec from the code -/

/-- A `join` message with the `create` flag set. -/

def joinCreateMsg : JoinMsg := ⟨true, "", "v", 0, false⟩

/-- A plain `join` message (no `create`). -/

def joinPlainMsg : JoinMsg := ⟨false, "", "", 0, false⟩

/-- Alice creates room `R`; Bob then joins the existing room with
`create:true`. -/

def twoCreateTrace : List Event := [
  Event.wconnect 1 "r" "1" "Alice" 0,
  Event.wjoin 1 joinCreateMsg 1,
  Event.wconnect 2 "R" "2" "Bob" 2,
  Event.wjoin 2 joinCreateMsg 3 ]

/-- Alice creates room `R`; a second connection for the same room never
sends `join`. -/

def strangerTrace : List Event := [
  Event.wconnect 1 "R" "1" "A" 0,
  Event.wjoin 1 joinCreateMsg 1,
  Event.wconnect 2 "R" "2" "B" 2 ]

/-- Room `P` is created private with `max_participants: 1`; a second
user connects. -/

def privFullTrace : List Event := [
  Event.wconnect 1 "P" "1" "A" 0,
  Event.wjoin 1 ⟨true, "", "v", 1, true⟩ 1,
  Event.wconnect 2 "P" "2" "B" 2 ]

/-- A creates `R` (host), B and C join, B re-joins (refreshing its
`joinedAt` while keeping its insertion position), then A leaves. -/

def rejoinTrace : List Event := [
  Event.wconnect 1 "R" "1" "A" 0,
  Event.wjoin 1 joinCreateMsg 1,
  Event.wconnect 2 "R" "2" "B" 2,
  Event.wjoin 2 joinPlainMsg 3,
  Event.wconnect 3 "R" "3" "C" 4,
  Event.wjoin 3 joinPlainMsg 5,
  Event.wjoin 2 joinPlainMsg 7,
  Event.wleave 1 8 ]

/-- A session that answers pings: it joins a room and two `pong`s
arrive before the first heartbeat sweep. -/

def pongTrace : List Event := [
  Event.wconnect 1 "R" "1" "A" 0,
  Event.wjoin 1 joinCreateMsg 1,
  Event.wpong 1 5,
  Event.wpong 1 29 ]

/-- Two chat messages appended during the same wall-clock millisecond. -/

def sameMsTrace : List Event := [
  Event.wconnect 1 "R" "1" "A" 0,
  Event.wjoin 1 joinCreateMsg 1,
  Event.wchat 1 " a " 5,
  Event.wchat 1 "b" 5 ]

/-- The "exactly one host, and it is `host_user_id`" invariant as claimed:
every non-empty room has exactly one host-flagged participant and every
host-flagged participant carries `room.host_user_id`. -/

def OneHostInv (s : ServerState) : Prop :=
  ∀ cr ∈ s.rooms, cr.2.participants ≠ [] →
    (cr.2.participants.filter (fun p => p.isHost)).length = 1 ∧
    ∀ p ∈ cr.2.participants, p.isHost = true → p.userId = cr.2.host_user_id

/-- The entries a given room instance (identified by its `rid`) ever
appended, read off an audit log. -/

def logOf (log : List (Nat × α)) (rid : Nat) : List α :=
  (log.filter (fun e => e.1 == rid)).map Prod.snd

/-- Structural invariant of reachable server states: fresh and pairwise
distinct room instance ids, duplicate-free participant keys, the host
flag on the participant named by `host_user_id`, message-id bounds
relative to the room's counter and its audit log, the history caps, and
each history being a suffix of what the room instance ever appended. -/

structure Inv (s : ServerState) : Prop where
  ridFresh : ∀ cr ∈ s.rooms, cr.2.rid < s.nextRid
  ridsNodup : (s.rooms.map (fun cr => cr.2.rid)).Nodup
  logFresh : ∀ e ∈ s.chatLog, e.1 < s.nextRid
  pbLogFresh : ∀ e ∈ s.pbLog, e.1 < s.nextRid
  keysNodup : ∀ cr ∈ s.rooms, (cr.2.participants.map Participant.userId).Nodup
  hostFlag : ∀ cr ∈ s.rooms, ∀ p ∈ cr.2.participants,
    p.userId = cr.2.host_user_id → p.isHost = true
  msgBound : ∀ cr ∈ s.rooms, ∀ mm ∈ cr.2.messages, mm.id ≤ cr.2.lastMessageId
  logBound : ∀ cr ∈ s.rooms, ∀ e ∈ s.chatLog, e.1 = cr.2.rid → e.2.id ≤ cr.2.lastMessageId
  msgCap : ∀ cr ∈ s.rooms, cr.2.messages.length ≤ 200
  pbCap : ∀ cr ∈ s.rooms, cr.2.playbackHistory.length ≤ 50
  msgSuffix : ∀ cr ∈ s.rooms, cr.2.messages <:+ logOf s.chatLog cr.2.rid
  pbSuffix : ∀ cr ∈ s.rooms, cr.2.playbackHistory <:+ logOf s.pbLog cr.2.rid

/-! ## Equational descriptions of the handlers -/

/-- The chat message built by `handleChatMessage` for a given sender,
body and wall-clock instant. -/

def chatMsgOf (room : Room) (conn : Conn) (text : String) (now : Nat) : ChatMsg :=
  ⟨room.lastMessageId + 1, conn.userId, conn.username, jsTrim text, now⟩

/-- The room stored by a successful join. -/

def joinedRoom (room : Room) (conn : Conn) (ws : Nat) (isCreating : Bool) (now : Nat) : Room :=
  let isHost := isCreating || (room.host_user_id == conn.userId)
  let participant : Participant := ⟨ws, conn.userId, conn.username, now, now, isHost⟩
  let room1 := if isCreating then
      { room with host_user_id := conn.userId, host_username := conn.username }
    else room
  { room1 with participants := participantsSet room1.participants participant }

/-- The room stored by a successful chat append. -/

def chatRoom (room : Room) (msg : ChatMsg) : Room :=
  { room with
    lastMessageId := room.lastMessageId + 1
    messages := if 200 < (room.messages ++ [msg]).length
      then lastN 200 (room.messages ++ [msg]) else room.messages ++ [msg] }

/-- The room stored by a playback update. -/

def playbackRoom (room : Room) (ct : Int) (ip : Bool) (ev : PlaybackEvent) : Room :=
  { room with
    video_current_time := ct
    is_playing := ip
    playbackHistory := if 50 < (room.playbackHistory ++ [ev]).length
      then lastN 50 (room.playbackHistory ++ [ev]) else room.playbackHistory ++ [ev] }

/-- The room stored by a host-succession leave. -/

def promotedRoom (room : Room) (newHost : Participant) (rest : List Participant) : Room :=
  { room with
    participants := { newHost with isHost := true } :: rest
    host_user_id := newHost.userId
    host_username := newHost.username }

/-! ## Wall-clock ordering of the histories -/

/-- The `Date.now()` reading an event carries (`wdeferredDelete` is the
only handler that never reads the clock). -/

def eventTime : Event → Option Nat
  | Event.wconnect _ _ _ _ n => some n
  | Event.wjoin _ _ n => some n
  | Event.wchat _ _ n => some n
  | Event.wplayback _ _ _ _ n => some n
  | Event.wsync _ n => some n
  | Event.wparticipants _ n => some n
  | Event.wleave _ n => some n
  | Event.wclose _ n => some n
  | Event.wpong _ n => some n
  | Event.wheartbeat n => some n
  | Event.wdeferredDelete _ => none
  | Event.wsweep n => some n

/-- The clock readings along a trace never decrease, starting from `t0`. -/

def timesFromB : Nat → List Event → Bool
  | _, [] => true
  | t0, e :: es =>
    match eventTime e with
    | none => timesFromB t0 es
    | some t => decide (t0 ≤ t) && timesFromB t es

/-- Time-indexed invariant: history timestamps are non-decreasing and
bounded by the last clock reading `T`. -/

structure TInv (s : ServerState) (T : Nat) : Prop where
  msgSorted : ∀ cr ∈ s.rooms, (cr.2.messages.map ChatMsg.timestamp).Pairwise (· ≤ ·)
  msgBound : ∀ cr ∈ s.rooms, ∀ mm ∈ cr.2.messages, mm.timestamp ≤ T
  pbSorted : ∀ cr ∈ s.rooms,
    (cr.2.playbackHistory.map PlaybackEvent.timestamp).Pairwise (· ≤ ·)
  pbBound : ∀ cr ∈ s.rooms, ∀ ev ∈ cr.2.playbackHistory, ev.timestamp ≤ T

def roomAfterCreate : Room :=
  ⟨0, "R", "Sala de Alice", "1", "Alice", "v", 10, false, 1, 0, false,
   [⟨1, "1", "Alice", 1, 1, true⟩], [], [], 0⟩

def bobConn : Conn := ⟨"R", "2", "Bob", none, none, true⟩

def strangerRoom : Room :=
  ⟨0, "R", "Sala de A", "1", "A", "v", 10, false, 1, 0, false,
   [⟨1, "1", "A", 1, 1, true⟩], [], [], 0⟩

def strangerConn : Conn := ⟨"R", "2", "B", none, none, true⟩

def privRoom : Room :=
  ⟨0, "P", "Sala de A", "1", "A", "v", 1, true, 1, 0, false,
   [⟨1, "1", "A", 1, 1, true⟩], [], [], 0⟩

def privConn : Conn := ⟨"P", "2", "B", none, none, true⟩

def preLeaveRoom : Room :=
  ⟨0, "R", "Sala de A", "1", "A", "v", 10, false, 1, 0, false,
   [⟨1, "1", "A", 1, 1, true⟩, ⟨2, "2", "B", 7, 7, false⟩, ⟨3, "3", "C", 5, 5, false⟩],
   [], [], 0⟩

def hostConn : Conn := ⟨"R", "1", "A", some true, none, true⟩

def soloRoom : Room :=
  ⟨0, "R", "Sala de A", "1", "A", "v", 10, false, 1, 0, false,
   [⟨1, "1", "A", 1, 1, true⟩], [], [], 0⟩

def soloConn : Conn := ⟨"R", "1", "A", some true, none, true⟩

end WatchParty

theorem mem_alistSet [BEq κ] {l : List (κ × α)} {k : κ} {v : α}
    {e : κ × α} (h : e ∈ alistSet l k v) : e = (k, v) ∨ e ∈ l := by
  induction l with
  | nil => simpa [alistSet] using h
  | cons hd rest ih =>
    unfold alistSet at h
    by_cases hk : hd.1 == k
    · simp only [hk, if_pos] at h
      rcases List.mem_cons.mp h with h' | h'
      · exact Or.inl h'
      · exact Or.inr (List.mem_cons_of_mem _ h')
    · simp only [hk, Bool.false_eq_true, if_neg, not_false_iff] at h
      rcases List.mem_cons.mp h with h' | h'
      · exact Or.inr (h' ▸ List.mem_cons_self _ _)
      · rcases ih h' with h'' | h''
        · exact Or.inl h''
        · exact Or.inr (List.mem_cons_of_mem _ h'')

theorem alistGet_set_self [BEq κ] [LawfulBEq κ] (l : List (κ × α)) (k : κ) (v : α) :
    alistGet (alistSet l k v) k = some v := by
  induction l with
  | nil => simp [alistGet, alistSet, List.find?]
  | cons hd rest ih =>
    by_cases hk : hd.1 == k
    · simp [alistGet, alistSet, hk, List.find?]
    · simp only [alistSet, hk, Bool.false_eq_true, if_neg, not_false_iff]
      simpa [alistGet, List.find?, hk] using ih

theorem alistGet_set_ne [BEq κ] [LawfulBEq κ] (l : List (κ × α)) (k k' : κ) (v : α)
    (h : k' ≠ k) : alistGet (alistSet l k v) k' = alistGet l k' := by
  have hkk : (k == k') = false := by
    cases hkk : k == k'
    · rfl
    · exact absurd (eq_of_beq hkk).symm h
  induction l with
  | nil => simp [alistGet, alistSet, List.find?, hkk]
  | cons hd rest ih =>
    by_cases hk : hd.1 == k
    · have hd' : (hd.1 == k') = false := by
        cases hdk' : hd.1 == k'
        · rfl
        · exact absurd ((eq_of_beq hk).symm.trans (eq_of_beq hdk')) h.symm
      simp [alistGet, alistSet, hk, List.find?, hkk, hd']
    · simp only [alistSet, hk, Bool.false_eq_true, if_neg, not_false_iff]
      cases hdk' : hd.1 == k'
      · simpa [alistGet, List.find?, hdk'] using ih
      · simp [alistGet, List.find?, hdk']

theorem alistGet_mem [BEq κ] [LawfulBEq κ] {l : List (κ × α)} {k : κ} {v : α}
    (h : alistGet l k = some v) : (k, v) ∈ l := by
  unfold alistGet at h
  cases hf : l.find? (fun e => e.1 == k) with
  | none => rw [hf] at h; simp at h
  | some e =>
    rw [hf] at h
    simp only [Option.map, Option.some.injEq] at h
    have hm := List.mem_of_find?_eq_some hf
    have hp : (e.1 == k) = true := List.find?_some (p := fun x : κ × α => x.1 == k) hf
    have h1 : e.1 = k := eq_of_beq hp
    obtain ⟨e1, e2⟩ := e
    cases h1
    cases h
    exact hm

theorem alistSet_of_get_none [BEq κ] {l : List (κ × α)} {k : κ} (v : α)
    (h : alistGet l k = none) : alistSet l k v = l ++ [(k, v)] := by
  induction l with
  | nil => rfl
  | cons e rest ih =>
    cases hk : e.1 == k with
    | true => simp [alistGet, List.find?, hk] at h
    | false =>
      have h' : alistGet rest k = none := by
        simpa [alistGet, List.find?, hk] using h
      simp [alistSet, hk, ih h']

theorem not_mem_keys_of_get_none [BEq κ] [LawfulBEq κ] {l : List (κ × α)} {k : κ}
    (h : alistGet l k = none) : k ∉ l.map Prod.fst := by
  intro hk
  rcases List.mem_map.mp hk with ⟨e, he, hek⟩
  have hf : l.find? (fun e => e.1 == k) = none := by
    unfold alistGet at h
    cases hf : l.find? (fun e => e.1 == k) with
    | none => rfl
    | some _ => rw [hf] at h; simp at h
  have := List.find?_eq_none.mp hf e he
  simp [hek] at this

/-- Splitting view of a key update: when the key is present, `alistSet`
replaces the first entry carrying it and leaves everything else alone. -/

theorem alist_split [BEq κ] [LawfulBEq κ] {l : List (κ × α)} {k : κ} {w : α}
    (h : alistGet l k = some w) (v : α) :
    ∃ l1 l2, l = l1 ++ (k, w) :: l2 ∧ alistSet l k v = l1 ++ (k, v) :: l2 := by
  induction l with
  | nil => simp [alistGet, List.find?] at h
  | cons e rest ih =>
    cases hk : e.1 == k with
    | true =>
      have he1 : e.1 = k := eq_of_beq hk
      have he2 : e.2 = w := by
        simpa [alistGet, List.find?, hk] using h
      refine ⟨[], rest, ?_, ?_⟩
      · obtain ⟨e1, e2⟩ := e; cases he1; cases he2; rfl
      · simp [alistSet, hk]
    | false =>
      have h' : alistGet rest k = some w := by
        simpa [alistGet, List.find?, hk] using h
      obtain ⟨l1, l2, hl, hs⟩ := ih h'
      exact ⟨e :: l1, l2, by simp [hl], by simp [alistSet, hk, hs]⟩

namespace WatchParty

/-- Claim C1, counterexample: after Alice creates room `R` and Bob joins
the existing room with `create:true` (a reachable state, `twoCreateTrace`),
the room holds two host-flagged participants — the single-host invariant
fails. -/

theorem c1_counterexample : ¬ OneHostInv (run twoCreateTrace) := by
  unfold OneHostInv
  decide

/-- Claim C2, counterexample: in `twoCreateTrace`, the room's
`host_user_id` is `"1"` before Bob's `create:true` join of the existing
room and `"2"` after it — the join does not leave the host fields
unchanged, so the `create` flag is not ignored. -/

theorem c2_counterexample :
    (alistGet (run (twoCreateTrace.take 3)).rooms "R").map Room.host_user_id = some "1" ∧
    (alistGet (run twoCreateTrace).rooms "R").map Room.host_user_id = some "2" := by decide

/-- Claim C4 (code bug): in `pongTrace` the session answered both pings —
the close over the connection records `localAlive := true` — yet
`conn.isAlive`, the field the sweeper reads, is still unset, so the first
heartbeat sweep terminates the connection. -/

theorem c4_heartbeat_code_bug :
    (alistGet (run pongTrace).connections 1).map Conn.localAlive = some true ∧
    (alistGet (run pongTrace).connections 1).map Conn.isAlive = some none ∧
    alistGet (run (pongTrace ++ [Event.wheartbeat 30])).connections 1 = none := by decide

/-- Claim C5, counterexample: in `strangerTrace` user `"2"` is connected
to room `R` but never joined; its `playback_update` still rewrites the
room's playback position (0 becomes 42) and a `playback_update` frame is
broadcast. -/

theorem c5_counterexample :
    (alistGet (run strangerTrace).rooms "R").map
      (fun r => participantsGet r.participants "2") = some none ∧
    (alistGet (run strangerTrace).rooms "R").map Room.video_current_time = some 0 ∧
    (alistGet (stepS (run strangerTrace) (Event.wplayback 2 42 true "play" 3)).1.rooms "R").map
      Room.video_current_time = some 42 ∧
    (stepS (run strangerTrace) (Event.wplayback 2 42 true "play" 3)).2 ≠ [] := by decide

/-- Claim C6, counterexample: in `privFullTrace` room `P` is full
(1 participant, `max_participants` 1), but a plain join is refused with
the privacy error, not with "La sala está llena". -/

theorem c6_counterexample :
    (alistGet (run privFullTrace).rooms "P").map
      (fun r => (r.participants.length, r.max_participants)) = some (1, 1) ∧
    (stepS (run privFullTrace) (Event.wjoin 2 joinPlainMsg 3)).2 =
      [(2, Frame.errorF "Esta sala es privada. Necesitas una invitación para unirte.")] ∧
    (stepS (run privFullTrace) (Event.wjoin 2 joinPlainMsg 3)).2 ≠
      [(2, Frame.errorF "La sala está llena")] := by decide

/-- Claim C8, counterexample: in `rejoinTrace` the departing host is
replaced by B (the first remaining participant in insertion order, with
`joinedAt` 7) although C joined earlier (`joinedAt` 5 < 7); the claimed
earliest-`joined_at` rule would have promoted C (`"3"`). -/

theorem c8_counterexample :
    (alistGet (run rejoinTrace).rooms "R").map Room.host_user_id = some "2" ∧
    (alistGet (run rejoinTrace).rooms "R").map Room.host_user_id ≠ some "3" ∧
    (alistGet (run rejoinTrace).rooms "R").map
      (fun r => participantsGet r.participants "2") = some (some ⟨2, "2", "B", 7, 7, true⟩) ∧
    (alistGet (run rejoinTrace).rooms "R").map
      (fun r => participantsGet r.participants "3") = some (some ⟨3, "3", "C", 5, 5, false⟩) ∧
    (5 : Nat) < 7 := by decide

/-- Claim C9, counterexample: two chat messages appended in the same
wall-clock millisecond (`sameMsTrace`) carry equal timestamps, so the
chat history is not in strictly increasing timestamp order. -/

theorem c9_counterexample :
    (alistGet (run sameMsTrace).rooms "R").map
      (fun r => r.messages.map ChatMsg.timestamp) = some [5, 5] ∧
    ¬ List.Pairwise (fun a b : Nat => a < b) [5, 5] := by
  refine ⟨by decide, ?_⟩
  intro h
  rcases List.pairwise_cons.mp h with ⟨h5, _⟩
  exact absurd (h5 5 (List.mem_singleton.mpr rfl)) (lt_irrefl 5)

/-! ## Lemmas about the participant map -/

theorem mem_participantsSet {l : List Participant} {p q : Participant}
    (h : q ∈ participantsSet l p) : q = p ∨ q ∈ l := by
  induction l with
  | nil => simpa [participantsSet] using h
  | cons hd rest ih =>
    unfold participantsSet at h
    cases hk : hd.userId == p.userId with
    | true =>
      rw [hk] at h
      simp only [if_pos] at h
      rcases List.mem_cons.mp h with h' | h'
      · exact Or.inl h'
      · exact Or.inr (List.mem_cons_of_mem _ h')
    | false =>
      rw [hk] at h
      simp only [Bool.false_eq_true, if_neg, not_false_iff] at h
      rcases List.mem_cons.mp h with h' | h'
      · exact Or.inr (h' ▸ List.mem_cons_self _ _)
      · rcases ih h' with h'' | h''
        · exact Or.inl h''
        · exact Or.inr (List.mem_cons_of_mem _ h'')

theorem mem_participantsSet_nodup {l : List Participant} {p q : Participant}
    (hnd : (l.map Participant.userId).Nodup)
    (h : q ∈ participantsSet l p) : q = p ∨ (q ∈ l ∧ q.userId ≠ p.userId) := by
  induction l with
  | nil => simpa [participantsSet] using h
  | cons hd rest ih =>
    simp only [List.map_cons, List.nodup_cons] at hnd
    unfold participantsSet at h
    cases hk : hd.userId == p.userId with
    | true =>
      rw [hk] at h
      simp only [if_pos] at h
      rcases List.mem_cons.mp h with h' | h'
      · exact Or.inl h'
      · refine Or.inr ⟨List.mem_cons_of_mem _ h', fun hq => ?_⟩
        exact hnd.1 (by
          rw [eq_of_beq hk]
          rw [← hq]
          exact List.mem_map_of_mem Participant.userId h')
    | false =>
      rw [hk] at h
      simp only [Bool.false_eq_true, if_neg, not_false_iff] at h
      rcases List.mem_cons.mp h with h' | h'
      · refine Or.inr ⟨h' ▸ List.mem_cons_self _ _, ?_⟩
        rw [h']
        intro hq
        exact absurd (beq_iff_eq.mpr hq) (by simp [hk])
      · rcases ih hnd.2 h' with h'' | h''
        · exact Or.inl h''
        · exact Or.inr ⟨List.mem_cons_of_mem _ h''.1, h''.2⟩

theorem mem_map_userId_participantsSet {l : List Participant} {p : Participant} {x : String}
    (h : x ∈ (participantsSet l p).map Participant.userId) :
    x = p.userId ∨ x ∈ l.map Participant.userId := by
  rcases List.mem_map.mp h with ⟨q, hq, hqx⟩
  rcases mem_participantsSet hq with h' | h'
  · exact Or.inl (hqx ▸ h' ▸ rfl)
  · exact Or.inr (hqx ▸ List.mem_map_of_mem Participant.userId h')

theorem nodup_participantsSet {l : List Participant} (p : Participant)
    (hnd : (l.map Participant.userId).Nodup) :
    ((participantsSet l p).map Participant.userId).Nodup := by
  induction l with
  | nil => simp [participantsSet]
  | cons hd rest ih =>
    simp only [List.map_cons, List.nodup_cons] at hnd
    unfold participantsSet
    cases hk : hd.userId == p.userId with
    | true =>
      simp only [if_pos, List.map_cons, List.nodup_cons]
      exact ⟨by rw [← eq_of_beq hk]; exact hnd.1, hnd.2⟩
    | false =>
      simp only [Bool.false_eq_true, if_neg, not_false_iff, List.map_cons, List.nodup_cons]
      refine ⟨fun hmem => ?_, ih hnd.2⟩
      rcases mem_map_userId_participantsSet hmem with h' | h'
      · exact absurd (beq_iff_eq.mpr h') (by simp [hk])
      · exact hnd.1 h'

theorem mem_participantsDelete {l : List Participant} {uid : String} {q : Participant}
    (h : q ∈ participantsDelete l uid) : q ∈ l ∧ q.userId ≠ uid := by
  unfold participantsDelete at h
  have := List.mem_filter.mp h
  refine ⟨this.1, fun hq => ?_⟩
  have := this.2
  rw [hq] at this
  simp at this

theorem nodup_participantsDelete {l : List Participant} (uid : String)
    (hnd : (l.map Participant.userId).Nodup) :
    ((participantsDelete l uid).map Participant.userId).Nodup :=
  hnd.sublist ((List.filter_sublist l).map Participant.userId)

/-! ## Lemmas about broadcast fan-out -/

theorem mem_broadcastToRoom {rs : List (String × Room)} {socks : List Nat}
    {code : String} {f : Frame} {ex : Exclude} {room : Room} {p : Participant}
    (hr : alistGet rs code = some room) (hp : p ∈ room.participants)
    (hex : ex.matches p = false) (hopen : socks.contains p.wsId = true) :
    (p.wsId, f) ∈ broadcastToRoom rs socks code f ex := by
  unfold broadcastToRoom
  rw [hr]
  have hmem : p.wsId ∈ socks := by simpa using hopen
  exact List.mem_filterMap.mpr ⟨p, hp, by simp [hex, hopen, hmem]⟩

theorem broadcastToRoom_origin {rs : List (String × Room)} {socks : List Nat}
    {code : String} {f : Frame} {ex : Exclude} {room : Room} {w : Nat} {g : Frame}
    (hr : alistGet rs code = some room)
    (h : (w, g) ∈ broadcastToRoom rs socks code f ex) :
    g = f ∧ ∃ p ∈ room.participants, p.wsId = w ∧ ex.matches p = false := by
  unfold broadcastToRoom at h
  rw [hr] at h
  rcases List.mem_filterMap.mp h with ⟨p, hp, hsome⟩
  cases hex : ex.matches p with
  | true => rw [hex] at hsome; simp at hsome
  | false =>
    rw [hex] at hsome
    simp only [Bool.false_eq_true, if_neg, not_false_iff] at hsome
    cases hopen : socks.contains p.wsId with
    | false => rw [hopen] at hsome; simp at hsome
    | true =>
      rw [hopen] at hsome
      simp only [if_pos, Option.some.injEq, Prod.mk.injEq] at hsome
      exact ⟨hsome.2.symm, p, hp, hsome.1, hex⟩

theorem inv_init : Inv initState := by
  constructor <;> intros <;> simp_all [initState]

/-- `Inv` only reads the room table, the id supply and the logs. -/

theorem inv_congr {s s' : ServerState} (h : Inv s)
    (hr : s'.rooms = s.rooms) (hn : s'.nextRid = s.nextRid)
    (hc : s'.chatLog = s.chatLog) (hp : s'.pbLog = s.pbLog) : Inv s' := by
  obtain ⟨h1, h2, h3, h4, h5, h6, h7, h8, h9, h10, h11, h12⟩ := h
  exact ⟨hr ▸ hn ▸ h1, hr ▸ h2, hn ▸ hc ▸ h3, hn ▸ hp ▸ h4, hr ▸ h5, hr ▸ h6,
    hr ▸ h7, hr ▸ hc ▸ h8, hr ▸ h9, hr ▸ h10, hr ▸ hc ▸ h11, hr ▸ hp ▸ h12⟩

theorem logOf_append_self (log : List (Nat × α)) (rid : Nat) (l : List α) :
    logOf (log ++ l.map (fun m => (rid, m))) rid = logOf log rid ++ l := by
  unfold logOf
  rw [List.filter_append, List.map_append]
  congr 1
  induction l with
  | nil => rfl
  | cons a t ih => simpa using ih

theorem logOf_append_ne (log : List (Nat × α)) (rid r : Nat) (l : List α)
    (h : r ≠ rid) : logOf (log ++ l.map (fun m => (rid, m))) r = logOf log r := by
  unfold logOf
  rw [List.filter_append]
  have : (l.map (fun m => (rid, m))).filter (fun e => e.1 == r) = [] := by
    induction l with
    | nil => rfl
    | cons a t ih =>
      have : (rid == r) = false := by
        cases hrr : rid == r
        · rfl
        · exact absurd (eq_of_beq hrr).symm h
      simpa [this] using ih
  simp [this]

theorem suffix_append_same {l1 l2 l3 : List α} (h : l1 <:+ l2) :
    l1 ++ l3 <:+ l2 ++ l3 := by
  obtain ⟨t, rfl⟩ := h
  exact ⟨t, (List.append_assoc t l1 l3).symm⟩

/-- Updating one room in place (same instance id): every entry of the new
table is the new room or an untouched old entry whose instance id differs
from the updated room's, and instance ids stay duplicate-free. -/

theorem rooms_set_cases {rooms : List (String × Room)} {code : String} {room : Room}
    (hnd : (rooms.map (fun cr => cr.2.rid)).Nodup)
    (hget : alistGet rooms code = some room) {room' : Room}
    (hrid : room'.rid = room.rid) :
    (∀ cr ∈ alistSet rooms code room',
      cr = (code, room') ∨ (cr ∈ rooms ∧ cr.2.rid ≠ room.rid)) ∧
    ((alistSet rooms code room').map (fun cr => cr.2.rid)).Nodup := by
  obtain ⟨l1, l2, hl, hs⟩ := alist_split hget room'
  have hmapnew : (alistSet rooms code room').map (fun cr => cr.2.rid) =
      rooms.map (fun cr => cr.2.rid) := by
    rw [hs, hl]
    simp [hrid]
  have hmid : room.rid ∉ (l1.map (fun cr => cr.2.rid)) ++ (l2.map (fun cr => cr.2.rid)) := by
    have := hnd
    rw [hl] at this
    simp only [List.map_append, List.map_cons] at this
    have := List.nodup_middle.mp this
    exact (List.nodup_cons.mp this).1
  refine ⟨?_, hmapnew ▸ hnd⟩
  intro cr hcr
  rw [hs] at hcr
  rcases List.mem_append.mp hcr with h1 | h1
  · refine Or.inr ⟨hl ▸ List.mem_append_left _ h1, fun hrr => ?_⟩
    exact hmid (List.mem_append_left _ (hrr ▸ List.mem_map_of_mem _ h1))
  · rcases List.mem_cons.mp h1 with h2 | h2
    · exact Or.inl h2
    · refine Or.inr ⟨hl ▸ List.mem_append_right _ (List.mem_cons_of_mem _ h2), fun hrr => ?_⟩
      exact hmid (List.mem_append_right _ (hrr ▸ List.mem_map_of_mem _ h2))

/-- The workhorse preservation lemma: replacing one room by an updated
room with the same instance id, possibly appending one entry to each
audit log, preserves `Inv`, given the per-room obligations for the
updated room. -/

theorem inv_roomUpdate {s s' : ServerState} {code : String} {room : Room}
    (h : Inv s) (hget : alistGet s.rooms code = some room)
    (room' : Room) (cAdd : Option ChatMsg) (pAdd : Option PlaybackEvent)
    (hs_rooms : s'.rooms = alistSet s.rooms code room')
    (hs_next : s'.nextRid = s.nextRid)
    (hs_clog : s'.chatLog = s.chatLog ++ cAdd.toList.map (fun m => (room.rid, m)))
    (hs_plog : s'.pbLog = s.pbLog ++ pAdd.toList.map (fun ev => (room.rid, ev)))
    (hrid : room'.rid = room.rid)
    (hknd : (room'.participants.map Participant.userId).Nodup)
    (hhf : ∀ p ∈ room'.participants, p.userId = room'.host_user_id → p.isHost = true)
    (hmb : ∀ mm ∈ room'.messages, mm.id ≤ room'.lastMessageId)
    (hlb : ∀ e ∈ s.chatLog, e.1 = room.rid → e.2.id ≤ room'.lastMessageId)
    (hcb : ∀ mm ∈ cAdd.toList, mm.id ≤ room'.lastMessageId)
    (hmc : room'.messages.length ≤ 200)
    (hpc : room'.playbackHistory.length ≤ 50)
    (hms : room'.messages <:+ logOf s.chatLog room.rid ++ cAdd.toList)
    (hps : room'.playbackHistory <:+ logOf s.pbLog room.rid ++ pAdd.toList) :
    Inv s' := by
  have hmemroom : (code, room) ∈ s.rooms := alistGet_mem hget
  obtain ⟨hcases, hnodup⟩ := rooms_set_cases h.ridsNodup hget hrid
  have hmemlog : ∀ e ∈ s'.chatLog,
      e ∈ s.chatLog ∨ ∃ mm ∈ cAdd.toList, e = (room.rid, mm) := by
    intro e he
    rw [hs_clog] at he
    rcases List.mem_append.mp he with h1 | h1
    · exact Or.inl h1
    · rcases List.mem_map.mp h1 with ⟨mm, hmm, hme⟩
      exact Or.inr ⟨mm, hmm, hme.symm⟩
  have hmemplog : ∀ e ∈ s'.pbLog,
      e ∈ s.pbLog ∨ ∃ ev ∈ pAdd.toList, e = (room.rid, ev) := by
    intro e he
    rw [hs_plog] at he
    rcases List.mem_append.mp he with h1 | h1
    · exact Or.inl h1
    · rcases List.mem_map.mp h1 with ⟨ev, hev, hee⟩
      exact Or.inr ⟨ev, hev, hee.symm⟩
  constructor
  · -- ridFresh
    intro cr hcr
    rw [hs_rooms] at hcr
    rw [hs_next]
    rcases hcases cr hcr with h1 | h1
    · rw [h1]
      exact hrid ▸ h.ridFresh _ hmemroom
    · exact h.ridFresh _ h1.1
  · -- ridsNodup
    rw [hs_rooms]
    exact hnodup
  · -- logFresh
    intro e he
    rw [hs_next]
    rcases hmemlog e he with h1 | ⟨mm, _, h1⟩
    · exact h.logFresh _ h1
    · rw [h1]
      exact h.ridFresh _ hmemroom
  · -- pbLogFresh
    intro e he
    rw [hs_next]
    rcases hmemplog e he with h1 | ⟨ev, _, h1⟩
    · exact h.pbLogFresh _ h1
    · rw [h1]
      exact h.ridFresh _ hmemroom
  · -- keysNodup
    intro cr hcr
    rw [hs_rooms] at hcr
    rcases hcases cr hcr with h1 | h1
    · rw [h1]; exact hknd
    · exact h.keysNodup _ h1.1
  · -- hostFlag
    intro cr hcr
    rw [hs_rooms] at hcr
    rcases hcases cr hcr with h1 | h1
    · rw [h1]; exact hhf
    · exact h.hostFlag _ h1.1
  · -- msgBound
    intro cr hcr
    rw [hs_rooms] at hcr
    rcases hcases cr hcr with h1 | h1
    · rw [h1]; exact hmb
    · exact h.msgBound _ h1.1
  · -- logBound
    intro cr hcr e he
    rw [hs_rooms] at hcr
    rcases hcases cr hcr with h1 | h1
    · rw [h1]
      intro hrr
      rcases hmemlog e he with h2 | ⟨mm, hmm, h2⟩
      · exact hlb e h2 (hrr.trans hrid)
      · rw [h2] at hrr ⊢
        exact hcb mm hmm
    · intro hrr
      rcases hmemlog e he with h2 | ⟨mm, hmm, h2⟩
      · exact h.logBound _ h1.1 e h2 hrr
      · rw [h2] at hrr
        exact absurd hrr.symm h1.2
  · -- msgCap
    intro cr hcr
    rw [hs_rooms] at hcr
    rcases hcases cr hcr with h1 | h1
    · rw [h1]; exact hmc
    · exact h.msgCap _ h1.1
  · -- pbCap
    intro cr hcr
    rw [hs_rooms] at hcr
    rcases hcases cr hcr with h1 | h1
    · rw [h1]; exact hpc
    · exact h.pbCap _ h1.1
  · -- msgSuffix
    intro cr hcr
    rw [hs_rooms] at hcr
    rcases hcases cr hcr with h1 | h1
    · rw [h1, hs_clog]
      simp only [hrid]
      rw [logOf_append_self]
      exact hms
    · rw [hs_clog, logOf_append_ne _ _ _ _ h1.2]
      exact h.msgSuffix _ h1.1
  · -- pbSuffix
    intro cr hcr
    rw [hs_rooms] at hcr
    rcases hcases cr hcr with h1 | h1
    · rw [h1, hs_plog]
      simp only [hrid]
      rw [logOf_append_self]
      exact hps
    · rw [hs_plog, logOf_append_ne _ _ _ _ h1.2]
      exact h.pbSuffix _ h1.1

theorem inv_roomsFilter {s s' : ServerState} (h : Inv s) (f : String × Room → Bool)
    (hr : s'.rooms = s.rooms.filter f) (hn : s'.nextRid = s.nextRid)
    (hc : s'.chatLog = s.chatLog) (hp : s'.pbLog = s.pbLog) : Inv s' := by
  have hmem : ∀ cr ∈ s'.rooms, cr ∈ s.rooms := by
    intro cr hcr
    rw [hr] at hcr
    exact (List.mem_filter.mp hcr).1
  constructor
  · intro cr hcr; rw [hn]; exact h.ridFresh _ (hmem _ hcr)
  · rw [hr]
    exact h.ridsNodup.sublist ((List.filter_sublist s.rooms).map _)
  · intro e he; rw [hn]; exact h.logFresh _ (hc ▸ he)
  · intro e he; rw [hn]; exact h.pbLogFresh _ (hp ▸ he)
  · intro cr hcr; exact h.keysNodup _ (hmem _ hcr)
  · intro cr hcr; exact h.hostFlag _ (hmem _ hcr)
  · intro cr hcr; exact h.msgBound _ (hmem _ hcr)
  · intro cr hcr e he; rw [hc] at he; exact h.logBound _ (hmem _ hcr) e he
  · intro cr hcr; exact h.msgCap _ (hmem _ hcr)
  · intro cr hcr; exact h.pbCap _ (hmem _ hcr)
  · intro cr hcr; rw [hc]; exact h.msgSuffix _ (hmem _ hcr)
  · intro cr hcr; rw [hp]; exact h.pbSuffix _ (hmem _ hcr)

theorem inv_createRoom {s : ServerState} (h : Inv s) {code : String}
    (hget : alistGet s.rooms code = none)
    (roomName hostUserId hostUsername videoId : String)
    (maxP : Nat) (isPriv : Bool) (now : Nat) :
    Inv (createRoom s code roomName hostUserId hostUsername videoId maxP isPriv now).1 := by
  unfold createRoom
  simp only
  rw [alistSet_of_get_none _ hget]
  have hmem : ∀ cr : String × Room, ∀ {newRoom : Room},
      cr ∈ s.rooms ++ [(code, newRoom)] → cr ∈ s.rooms ∨ cr = (code, newRoom) := by
    intro cr newRoom hcr
    rcases List.mem_append.mp hcr with h1 | h1
    · exact Or.inl h1
    · exact Or.inr (by simpa using h1)
  constructor
  · intro cr hcr
    rcases hmem _ hcr with h1 | h1
    · exact Nat.lt_succ_of_lt (h.ridFresh _ h1)
    · rw [h1]; exact Nat.lt_succ_self _
  · rw [List.map_append]
    rw [List.nodup_append]
    refine ⟨h.ridsNodup, List.nodup_singleton _, ?_⟩
    intro x hx hx'
    simp only [List.map_cons, List.map_nil, List.mem_singleton] at hx'
    rcases List.mem_map.mp hx with ⟨cr, hcr, hcrx⟩
    have := h.ridFresh _ hcr
    rw [hcrx, hx'] at this
    exact absurd this (lt_irrefl _)
  · intro e he; exact Nat.lt_succ_of_lt (h.logFresh _ he)
  · intro e he; exact Nat.lt_succ_of_lt (h.pbLogFresh _ he)
  · intro cr hcr
    rcases hmem _ hcr with h1 | h1
    · exact h.keysNodup _ h1
    · rw [h1]; simp
  · intro cr hcr
    rcases hmem _ hcr with h1 | h1
    · exact h.hostFlag _ h1
    · rw [h1]; intro p hp; simp at hp
  · intro cr hcr
    rcases hmem _ hcr with h1 | h1
    · exact h.msgBound _ h1
    · rw [h1]; intro mm hmm; simp at hmm
  · intro cr hcr e he
    rcases hmem _ hcr with h1 | h1
    · exact h.logBound _ h1 e he
    · rw [h1]
      intro hrr
      have := h.logFresh _ he
      rw [hrr] at this
      exact absurd this (lt_irrefl _)
  · intro cr hcr
    rcases hmem _ hcr with h1 | h1
    · exact h.msgCap _ h1
    · rw [h1]; simp
  · intro cr hcr
    rcases hmem _ hcr with h1 | h1
    · exact h.pbCap _ h1
    · rw [h1]; simp
  · intro cr hcr
    rcases hmem _ hcr with h1 | h1
    · exact h.msgSuffix _ h1
    · rw [h1]; exact List.nil_suffix
  · intro cr hcr
    rcases hmem _ hcr with h1 | h1
    · exact h.pbSuffix _ h1
    · rw [h1]; exact List.nil_suffix

theorem inv_handleJoinCore {s : ServerState} (h : Inv s) (ws : Nat) (conn : Conn)
    (m : JoinMsg) (now : Nat) : Inv (handleJoinCore s ws conn m now).1 := by
  cases hget : alistGet s.rooms conn.roomCode with
  | none =>
    have hred : (handleJoinCore s ws conn m now).1 = s := by
      unfold handleJoinCore joinRoom
      rw [hget]
    rw [hred]; exact h
  | some room =>
    have hmemroom := alistGet_mem hget
    by_cases hcap : room.max_participants ≤ room.participants.length
    · have hred : (handleJoinCore s ws conn m now).1 = s := by
        unfold handleJoinCore joinRoom
        rw [hget]
        dsimp only
        rw [if_pos hcap]
      rw [hred]; exact h
    · cases hm : m.create with
      | true =>
        have hred : (handleJoinCore s ws conn m now).1 = { s with
            rooms := alistSet s.rooms conn.roomCode { room with
              host_user_id := conn.userId
              host_username := conn.username
              participants := participantsSet room.participants
                ⟨ws, conn.userId, conn.username, now, now, true⟩ }
            connections := connSetHost s.connections ws true } := by
          unfold handleJoinCore joinRoom
          rw [hget]
          dsimp only
          rw [if_neg hcap, hm]
          simp only [if_true, Bool.true_or]
        rw [hred]
        refine inv_roomUpdate h hget _ none none rfl rfl (by simp) (by simp) rfl
          (nodup_participantsSet _ (h.keysNodup _ hmemroom)) ?_
          (h.msgBound _ hmemroom) (h.logBound _ hmemroom) (by simp)
          (h.msgCap _ hmemroom) (h.pbCap _ hmemroom)
          (by simpa using h.msgSuffix _ hmemroom)
          (by simpa using h.pbSuffix _ hmemroom)
        intro p hp hpu
        rcases mem_participantsSet_nodup (h.keysNodup _ hmemroom) hp with h1 | h1
        · rw [h1]
        · exact absurd hpu h1.2
      | false =>
        have hred : (handleJoinCore s ws conn m now).1 = { s with
            rooms := alistSet s.rooms conn.roomCode { room with
              participants := participantsSet room.participants
                ⟨ws, conn.userId, conn.username, now, now,
                  room.host_user_id == conn.userId⟩ }
            connections := connSetHost s.connections ws
              (room.host_user_id == conn.userId) } := by
          unfold handleJoinCore joinRoom
          rw [hget]
          dsimp only
          rw [if_neg hcap, hm]
          simp only [Bool.false_eq_true, if_false, Bool.false_or]
        rw [hred]
        refine inv_roomUpdate h hget _ none none rfl rfl (by simp) (by simp) rfl
          (nodup_participantsSet _ (h.keysNodup _ hmemroom)) ?_
          (h.msgBound _ hmemroom) (h.logBound _ hmemroom) (by simp)
          (h.msgCap _ hmemroom) (h.pbCap _ hmemroom)
          (by simpa using h.msgSuffix _ hmemroom)
          (by simpa using h.pbSuffix _ hmemroom)
        intro p hp hpu
        rcases mem_participantsSet_nodup (h.keysNodup _ hmemroom) hp with h1 | h1
        · rw [h1] at hpu ⊢
          show (room.host_user_id == conn.userId) = true
          exact beq_iff_eq.mpr hpu.symm
        · exact h.hostFlag _ hmemroom p h1.1 hpu

theorem inv_handleJoin {s : ServerState} (h : Inv s) (ws : Nat) (conn : Conn)
    (m : JoinMsg) (now : Nat) : Inv (handleJoin s ws conn m now).1 := by
  cases hget : alistGet s.rooms conn.roomCode with
  | none =>
    cases hm : m.create with
    | false =>
      have hred : (handleJoin s ws conn m now).1 = s := by
        unfold handleJoin
        rw [hget]
        dsimp only
        rw [hm]
        simp only [Bool.false_eq_true, if_false]
      rw [hred]; exact h
    | true =>
      have hred : (handleJoin s ws conn m now).1 =
          (handleJoinCore ((createRoom s conn.roomCode m.room_name conn.userId conn.username
            m.video_id (if m.max_participants = 0 then 10 else m.max_participants)
            m.is_private now).1) ws conn m now).1 := by
        unfold handleJoin
        rw [hget]
        dsimp only
        rw [hm]
        simp only [if_true]
      rw [hred]
      exact inv_handleJoinCore
        (inv_createRoom h hget _ _ _ _ _ _ _) ws conn m now
  | some room =>
    cases hpriv : room.is_private && !m.create with
    | true =>
      have hred : (handleJoin s ws conn m now).1 = s := by
        unfold handleJoin
        rw [hget]
        dsimp only
        rw [hpriv]
        simp only [if_true]
      rw [hred]; exact h
    | false =>
      have hred : (handleJoin s ws conn m now).1 = (handleJoinCore s ws conn m now).1 := by
        unfold handleJoin
        rw [hget]
        dsimp only
        rw [hpriv]
        simp only [Bool.false_eq_true, if_false]
      rw [hred]
      exact inv_handleJoinCore h ws conn m now

theorem inv_handleChatMessage {s : ServerState} (h : Inv s)
    (roomCode userId username text : String) (now : Nat) :
    Inv (handleChatMessage s roomCode userId username text now).1 := by
  cases hget : alistGet s.rooms roomCode with
  | none =>
    have hred : (handleChatMessage s roomCode userId username text now).1 = s := by
      unfold handleChatMessage
      rw [hget]
    rw [hred]; exact h
  | some room =>
    have hmemroom := alistGet_mem hget
    by_cases htrim : jsTrim text = ""
    · have hred : (handleChatMessage s roomCode userId username text now).1 = s := by
        unfold handleChatMessage
        rw [hget]
        dsimp only
        rw [if_pos htrim]
      rw [hred]; exact h
    · cases hpart : participantsGet room.participants userId with
      | none =>
        have hred : (handleChatMessage s roomCode userId username text now).1 = s := by
          unfold handleChatMessage
          rw [hget]
          dsimp only
          rw [if_neg htrim]
          rw [hpart]
        rw [hred]; exact h
      | some q =>
        have hred : (handleChatMessage s roomCode userId username text now).1 = { s with
            rooms := alistSet s.rooms roomCode { room with
              lastMessageId := room.lastMessageId + 1
              messages := if 200 <
                  (room.messages ++ [(⟨room.lastMessageId + 1, userId, username,
                    jsTrim text, now⟩ : ChatMsg)]).length
                then lastN 200 (room.messages ++ [⟨room.lastMessageId + 1, userId, username,
                    jsTrim text, now⟩])
                else room.messages ++ [⟨room.lastMessageId + 1, userId, username,
                    jsTrim text, now⟩] }
            chatLog := s.chatLog ++ [(room.rid,
              ⟨room.lastMessageId + 1, userId, username, jsTrim text, now⟩)] } := by
          unfold handleChatMessage
          rw [hget]
          dsimp only
          rw [if_neg htrim]
          rw [hpart]
        rw [hred]
        refine inv_roomUpdate h hget _
          (some ⟨room.lastMessageId + 1, userId, username, jsTrim text, now⟩) none
          rfl rfl (by simp) (by simp) rfl
          (h.keysNodup _ hmemroom) (h.hostFlag _ hmemroom) ?_
          (fun e he hrr => Nat.le_succ_of_le (h.logBound _ hmemroom e he hrr)) ?_
          ?_ (h.pbCap _ hmemroom) ?_
          (by simpa using h.pbSuffix _ hmemroom)
        · intro mm hmm
          have hmm1 : mm ∈ room.messages ++
              [(⟨room.lastMessageId + 1, userId, username, jsTrim text, now⟩ : ChatMsg)] := by
            by_cases hlen : 200 < (room.messages ++
                [(⟨room.lastMessageId + 1, userId, username, jsTrim text, now⟩ : ChatMsg)]).length
            · rw [if_pos hlen] at hmm
              unfold lastN at hmm
              exact List.drop_subset _ _ hmm
            · rw [if_neg hlen] at hmm
              exact hmm
          rcases List.mem_append.mp hmm1 with h1 | h1
          · exact Nat.le_succ_of_le (h.msgBound _ hmemroom mm h1)
          · rw [List.mem_singleton.mp h1]
        · intro mm hmm
          have hmmeq : mm = ⟨room.lastMessageId + 1, userId, username, jsTrim text, now⟩ := by
            simpa using hmm
          rw [hmmeq]
        · dsimp only
          by_cases hlen : 200 < (room.messages ++
              [(⟨room.lastMessageId + 1, userId, username, jsTrim text, now⟩ : ChatMsg)]).length
          · rw [if_pos hlen]
            unfold lastN
            rw [List.length_drop]
            omega
          · rw [if_neg hlen]
            omega
        · have hsuf : room.messages ++
              [(⟨room.lastMessageId + 1, userId, username, jsTrim text, now⟩ : ChatMsg)] <:+
              logOf s.chatLog room.rid ++
              [(⟨room.lastMessageId + 1, userId, username, jsTrim text, now⟩ : ChatMsg)] :=
            suffix_append_same (h.msgSuffix _ hmemroom)
          show _ <:+ logOf s.chatLog room.rid ++
            [(⟨room.lastMessageId + 1, userId, username, jsTrim text, now⟩ : ChatMsg)]
          by_cases hlen : 200 < (room.messages ++
              [(⟨room.lastMessageId + 1, userId, username, jsTrim text, now⟩ : ChatMsg)]).length
          · rw [if_pos hlen]
            unfold lastN
            exact (List.drop_suffix _ _).trans hsuf
          · rw [if_neg hlen]
            exact hsuf

theorem inv_handlePlaybackUpdate {s : ServerState} (h : Inv s)
    (roomCode userId username : String) (ct : Int) (ip : Bool) (et : String) (now : Nat) :
    Inv (handlePlaybackUpdate s roomCode userId username ct ip et now).1 := by
  cases hget : alistGet s.rooms roomCode with
  | none =>
    have hred : (handlePlaybackUpdate s roomCode userId username ct ip et now).1 = s := by
      unfold handlePlaybackUpdate
      rw [hget]
    rw [hred]; exact h
  | some room =>
    have hmemroom := alistGet_mem hget
    have hred : (handlePlaybackUpdate s roomCode userId username ct ip et now).1 = { s with
        rooms := alistSet s.rooms roomCode { room with
          video_current_time := ct
          is_playing := ip
          playbackHistory := if 50 <
              (room.playbackHistory ++ [(⟨userId, ct, ip, now⟩ : PlaybackEvent)]).length
            then lastN 50 (room.playbackHistory ++ [⟨userId, ct, ip, now⟩])
            else room.playbackHistory ++ [⟨userId, ct, ip, now⟩] }
        pbLog := s.pbLog ++ [(room.rid, ⟨userId, ct, ip, now⟩)] } := by
      unfold handlePlaybackUpdate
      rw [hget]
    rw [hred]
    refine inv_roomUpdate h hget _ none (some ⟨userId, ct, ip, now⟩)
      rfl rfl (by simp) (by simp) rfl
      (h.keysNodup _ hmemroom) (h.hostFlag _ hmemroom)
      (h.msgBound _ hmemroom) (h.logBound _ hmemroom) (by simp)
      (h.msgCap _ hmemroom) ?_
      (by simpa using h.msgSuffix _ hmemroom) ?_
    · dsimp only
      by_cases hlen : 50 <
          (room.playbackHistory ++ [(⟨userId, ct, ip, now⟩ : PlaybackEvent)]).length
      · rw [if_pos hlen]
        unfold lastN
        rw [List.length_drop]
        omega
      · rw [if_neg hlen]
        omega
    · have hsuf : room.playbackHistory ++ [(⟨userId, ct, ip, now⟩ : PlaybackEvent)] <:+
          logOf s.pbLog room.rid ++ [(⟨userId, ct, ip, now⟩ : PlaybackEvent)] :=
        suffix_append_same (h.pbSuffix _ hmemroom)
      show _ <:+ logOf s.pbLog room.rid ++ [(⟨userId, ct, ip, now⟩ : PlaybackEvent)]
      by_cases hlen : 50 <
          (room.playbackHistory ++ [(⟨userId, ct, ip, now⟩ : PlaybackEvent)]).length
      · rw [if_pos hlen]
        unfold lastN
        exact (List.drop_suffix _ _).trans hsuf
      · rw [if_neg hlen]
        exact hsuf

theorem inv_leaveRoom_rooms {s s' : ServerState} (h : Inv s) (socks : List Nat)
    (roomCode userId username : String) (now : Nat)
    (hr : s'.rooms = (leaveRoom s.rooms socks roomCode userId username now).1)
    (hn : s'.nextRid = s.nextRid) (hc : s'.chatLog = s.chatLog)
    (hp : s'.pbLog = s.pbLog) : Inv s' := by
  cases hget : alistGet s.rooms roomCode with
  | none =>
    refine inv_congr h ?_ hn hc hp
    rw [hr]
    unfold leaveRoom
    rw [hget]
  | some room =>
    have hmemroom := alistGet_mem hget
    cases hpart : participantsGet room.participants userId with
    | none =>
      refine inv_congr h ?_ hn hc hp
      rw [hr]
      unfold leaveRoom
      rw [hget]
      dsimp only
      rw [hpart]
    | some participant =>
      cases hrem : participantsDelete room.participants userId with
      | nil =>
        have hr' : s'.rooms =
            alistSet s.rooms roomCode { room with participants := [] } := by
          rw [hr]
          unfold leaveRoom
          rw [hget]
          dsimp only
          rw [hpart]
          dsimp only
          rw [hrem]
        refine inv_roomUpdate h hget _ none none hr' hn (by simp [hc]) (by simp [hp]) rfl
          (by simp) (by intro p hp'; simp at hp')
          (h.msgBound _ hmemroom) (h.logBound _ hmemroom) (by simp)
          (h.msgCap _ hmemroom) (h.pbCap _ hmemroom)
          (by simpa using h.msgSuffix _ hmemroom)
          (by simpa using h.pbSuffix _ hmemroom)
      | cons newHost rest =>
        have hndrem : ((newHost :: rest).map Participant.userId).Nodup := by
          rw [← hrem]
          exact nodup_participantsDelete _ (h.keysNodup _ hmemroom)
        cases hhost : participant.isHost with
        | false =>
          have hr' : s'.rooms =
              alistSet s.rooms roomCode { room with participants := newHost :: rest } := by
            rw [hr]
            unfold leaveRoom
            rw [hget]
            dsimp only
            rw [hpart]
            dsimp only
            rw [hrem, hhost]
          refine inv_roomUpdate h hget _ none none hr' hn (by simp [hc]) (by simp [hp]) rfl
            hndrem ?_
            (h.msgBound _ hmemroom) (h.logBound _ hmemroom) (by simp)
            (h.msgCap _ hmemroom) (h.pbCap _ hmemroom)
            (by simpa using h.msgSuffix _ hmemroom)
            (by simpa using h.pbSuffix _ hmemroom)
          intro p hp' hpu
          rw [← hrem] at hp'
          exact h.hostFlag _ hmemroom p (mem_participantsDelete hp').1 hpu
        | true =>
          have hr' : s'.rooms = alistSet s.rooms roomCode { room with
              participants := { newHost with isHost := true } :: rest
              host_user_id := newHost.userId
              host_username := newHost.username } := by
            rw [hr]
            unfold leaveRoom
            rw [hget]
            dsimp only
            rw [hpart]
            dsimp only
            rw [hrem, hhost]
          refine inv_roomUpdate h hget _ none none hr' hn (by simp [hc]) (by simp [hp]) rfl
            ?_ ?_
            (h.msgBound _ hmemroom) (h.logBound _ hmemroom) (by simp)
            (h.msgCap _ hmemroom) (h.pbCap _ hmemroom)
            (by simpa using h.msgSuffix _ hmemroom)
            (by simpa using h.pbSuffix _ hmemroom)
          · show ((newHost :: rest).map Participant.userId).Nodup
            exact hndrem
          · intro p hp' hpu
            rcases List.mem_cons.mp hp' with h1 | h1
            · rw [h1]
            · exfalso
              have hpu' : p.userId = newHost.userId := hpu
              have hnin : newHost.userId ∉ rest.map Participant.userId :=
                (List.nodup_cons.mp hndrem).1
              exact hnin (hpu' ▸ List.mem_map_of_mem Participant.userId h1)

theorem inv_handleLeave {s : ServerState} (h : Inv s)
    (roomCode userId username : String) (now : Nat) :
    Inv (handleLeave s roomCode userId username now).1 := by
  cases hget : alistGet s.rooms roomCode with
  | none =>
    have hred : (handleLeave s roomCode userId username now).1 = s := by
      unfold handleLeave
      rw [hget]
    rw [hred]; exact h
  | some room =>
    have hred : (handleLeave s roomCode userId username now).1 =
        { s with rooms := (leaveRoom s.rooms s.sockets roomCode userId username now).1 } := by
      unfold handleLeave
      rw [hget]
      dsimp only
      split <;> rfl
    rw [hred]
    exact inv_leaveRoom_rooms h s.sockets roomCode userId username now rfl rfl rfl rfl

theorem inv_closeHandler {s : ServerState} (h : Inv s) (ws : Nat) (now : Nat) :
    Inv (closeHandler s ws now).1 := by
  cases hget : alistGet s.connections ws with
  | none =>
    have hred : (closeHandler s ws now).1 =
        { s with sockets := s.sockets.filter (fun w => !(w == ws)) } := by
      unfold closeHandler
      rw [hget]
    rw [hred]
    exact inv_congr h rfl rfl rfl rfl
  | some ci =>
    have hred : (closeHandler s ws now).1 = { s with
        rooms := (leaveRoom s.rooms (s.sockets.filter (fun w => !(w == ws)))
          ci.roomCode ci.userId ci.username now).1
        connections := alistDelete s.connections ws
        sockets := s.sockets.filter (fun w => !(w == ws)) } := by
      unfold closeHandler
      rw [hget]
      dsimp only
      split
      · split <;> rfl
      · rfl
    rw [hred]
    exact inv_leaveRoom_rooms h _ ci.roomCode ci.userId ci.username now rfl rfl rfl rfl

theorem inv_stepS {s : ServerState} (h : Inv s) (e : Event) : Inv (stepS s e).1 := by
  cases e with
  | wconnect ws roomParam userParam usernameParam now =>
    unfold stepS
    dsimp only
    by_cases hval : jsToUpperCase roomParam = "" ∨ userParam = ""
    · rw [if_pos hval]; exact h
    · rw [if_neg hval]
      exact inv_congr h rfl rfl rfl rfl
  | wjoin ws m now =>
    unfold stepS
    dsimp only
    cases hc : alistGet s.connections ws with
    | none => exact h
    | some conn => exact inv_handleJoin h ws conn m now
  | wchat ws text now =>
    unfold stepS
    dsimp only
    cases hc : alistGet s.connections ws with
    | none => exact h
    | some conn => exact inv_handleChatMessage h conn.roomCode conn.userId conn.username text now
  | wplayback ws ct ip et now =>
    unfold stepS
    dsimp only
    cases hc : alistGet s.connections ws with
    | none => exact h
    | some conn =>
      exact inv_handlePlaybackUpdate h conn.roomCode conn.userId conn.username ct ip et now
  | wsync ws now =>
    unfold stepS
    dsimp only
    cases hc : alistGet s.connections ws with
    | none => exact h
    | some conn => exact h
  | wparticipants ws now =>
    unfold stepS
    dsimp only
    cases hc : alistGet s.connections ws with
    | none => exact h
    | some conn => exact h
  | wleave ws now =>
    unfold stepS
    dsimp only
    cases hc : alistGet s.connections ws with
    | none => exact h
    | some conn => exact inv_handleLeave h conn.roomCode conn.userId conn.username now
  | wclose ws now =>
    exact inv_closeHandler h ws now
  | wpong ws now =>
    exact inv_congr h rfl rfl rfl rfl
  | wheartbeat now =>
    exact inv_congr h rfl rfl rfl rfl
  | wdeferredDelete code =>
    unfold stepS
    dsimp only
    cases hget : alistGet s.rooms code with
    | none => exact h
    | some room =>
      dsimp only
      by_cases hemp : room.participants.isEmpty
      · rw [if_pos hemp]
        exact inv_roomsFilter h _ rfl rfl rfl rfl
      · rw [if_neg hemp]
        exact h
  | wsweep now =>
    exact inv_roomsFilter h _ rfl rfl rfl rfl

theorem inv_run (es : List Event) : Inv (run es) := by
  suffices hsuf : ∀ s, Inv s → Inv (es.foldl (fun s e => (stepS s e).1) s) by
    exact hsuf initState inv_init
  induction es with
  | nil => intro s hs; exact hs
  | cons e t ih => intro s hs; exact ih _ (inv_stepS hs e)

theorem inv_reachable {s : ServerState} (h : Reachable s) : Inv s := by
  obtain ⟨es, rfl⟩ := h
  exact inv_run es

theorem wjoin_step_eq {s : ServerState} {ws : Nat} {conn : Conn} (m : JoinMsg) (now : Nat)
    (hc : alistGet s.connections ws = some conn) :
    stepS s (Event.wjoin ws m now) = handleJoin s ws conn m now := by
  unfold stepS
  dsimp only
  rw [hc]

theorem wchat_step_eq {s : ServerState} {ws : Nat} {conn : Conn} (text : String) (now : Nat)
    (hc : alistGet s.connections ws = some conn) :
    stepS s (Event.wchat ws text now) =
      handleChatMessage s conn.roomCode conn.userId conn.username text now := by
  unfold stepS
  dsimp only
  rw [hc]

theorem wplayback_step_eq {s : ServerState} {ws : Nat} {conn : Conn}
    (ct : Int) (ip : Bool) (et : String) (now : Nat)
    (hc : alistGet s.connections ws = some conn) :
    stepS s (Event.wplayback ws ct ip et now) =
      handlePlaybackUpdate s conn.roomCode conn.userId conn.username ct ip et now := by
  unfold stepS
  dsimp only
  rw [hc]

theorem wleave_step_eq {s : ServerState} {ws : Nat} {conn : Conn} (now : Nat)
    (hc : alistGet s.connections ws = some conn) :
    stepS s (Event.wleave ws now) =
      handleLeave s conn.roomCode conn.userId conn.username now := by
  unfold stepS
  dsimp only
  rw [hc]

theorem handleJoin_notFound_eq {s : ServerState} {ws : Nat} {conn : Conn} {m : JoinMsg}
    (now : Nat) (hget : alistGet s.rooms conn.roomCode = none) (hm : m.create = false) :
    handleJoin s ws conn m now = (s, [(ws, Frame.errorF "La sala no existe")]) := by
  unfold handleJoin
  rw [hget]
  dsimp only
  rw [hm]
  simp only [Bool.false_eq_true, if_false]

theorem handleJoin_create_eq {s : ServerState} {ws : Nat} {conn : Conn} {m : JoinMsg}
    (now : Nat) (hget : alistGet s.rooms conn.roomCode = none) (hm : m.create = true) :
    handleJoin s ws conn m now =
      handleJoinCore ((createRoom s conn.roomCode m.room_name conn.userId conn.username
        m.video_id (if m.max_participants = 0 then 10 else m.max_participants)
        m.is_private now).1) ws conn m now := by
  unfold handleJoin
  rw [hget]
  dsimp only
  rw [hm]
  simp only [if_true]

theorem handleJoin_private_eq {s : ServerState} {ws : Nat} {conn : Conn} {m : JoinMsg}
    {room : Room} (now : Nat) (hget : alistGet s.rooms conn.roomCode = some room)
    (hpriv : (room.is_private && !m.create) = true) :
    handleJoin s ws conn m now =
      (s, [(ws, Frame.errorF "Esta sala es privada. Necesitas una invitación para unirte.")]) := by
  unfold handleJoin
  rw [hget]
  dsimp only
  rw [hpriv]
  simp only [if_true]

theorem handleJoin_core_eq {s : ServerState} {ws : Nat} {conn : Conn} {m : JoinMsg}
    {room : Room} (now : Nat) (hget : alistGet s.rooms conn.roomCode = some room)
    (hpriv : (room.is_private && !m.create) = false) :
    handleJoin s ws conn m now = handleJoinCore s ws conn m now := by
  unfold handleJoin
  rw [hget]
  dsimp only
  rw [hpriv]
  simp only [Bool.false_eq_true, if_false]

theorem handleJoinCore_full_eq {s : ServerState} {ws : Nat} {conn : Conn} {m : JoinMsg}
    {room : Room} (now : Nat) (hget : alistGet s.rooms conn.roomCode = some room)
    (hcap : room.max_participants ≤ room.participants.length) :
    handleJoinCore s ws conn m now = (s, [(ws, Frame.errorF "La sala está llena")]) := by
  unfold handleJoinCore joinRoom
  rw [hget]
  dsimp only
  rw [if_pos hcap]

theorem handleJoinCore_ok_state_eq {s : ServerState} {ws : Nat} {conn : Conn} {m : JoinMsg}
    {room : Room} (now : Nat) (hget : alistGet s.rooms conn.roomCode = some room)
    (hcap : ¬ room.max_participants ≤ room.participants.length) :
    (handleJoinCore s ws conn m now).1 = { s with
      rooms := alistSet s.rooms conn.roomCode (joinedRoom room conn ws m.create now)
      connections := connSetHost s.connections ws
        (m.create || (room.host_user_id == conn.userId)) } := by
  unfold handleJoinCore joinRoom joinedRoom
  rw [hget]
  dsimp only
  rw [if_neg hcap]

theorem handleChatMessage_noRoom_eq {s : ServerState} {roomCode userId username text : String}
    (now : Nat) (hget : alistGet s.rooms roomCode = none) :
    handleChatMessage s roomCode userId username text now = (s, []) := by
  unfold handleChatMessage
  rw [hget]

theorem handleChatMessage_empty_eq {s : ServerState} {roomCode userId username text : String}
    {room : Room} (now : Nat) (hget : alistGet s.rooms roomCode = some room)
    (htrim : jsTrim text = "") :
    handleChatMessage s roomCode userId username text now = (s, []) := by
  unfold handleChatMessage
  rw [hget]
  dsimp only
  rw [if_pos htrim]

theorem handleChatMessage_noPart_eq {s : ServerState} {roomCode userId username text : String}
    {room : Room} (now : Nat) (hget : alistGet s.rooms roomCode = some room)
    (htrim : jsTrim text ≠ "")
    (hq : participantsGet room.participants userId = none) :
    handleChatMessage s roomCode userId username text now = (s, []) := by
  unfold handleChatMessage
  rw [hget]
  dsimp only
  rw [if_neg htrim]
  rw [hq]

theorem handleChatMessage_found_eq {s : ServerState} {roomCode userId username text : String}
    {room : Room} {q : Participant} (now : Nat)
    (hget : alistGet s.rooms roomCode = some room)
    (htrim : jsTrim text ≠ "")
    (hq : participantsGet room.participants userId = some q) :
    handleChatMessage s roomCode userId username text now =
      ({ s with
          rooms := alistSet s.rooms roomCode
            (chatRoom room ⟨room.lastMessageId + 1, userId, username, jsTrim text, now⟩)
          chatLog := s.chatLog ++
            [(room.rid, ⟨room.lastMessageId + 1, userId, username, jsTrim text, now⟩)] },
       broadcastToRoom
         (alistSet s.rooms roomCode
           (chatRoom room ⟨room.lastMessageId + 1, userId, username, jsTrim text, now⟩))
         s.sockets roomCode
         (Frame.chatMessageF ⟨room.lastMessageId + 1, userId, username, jsTrim text, now⟩)
         Exclude.noneEx) := by
  unfold handleChatMessage chatRoom
  rw [hget]
  dsimp only
  rw [if_neg htrim]
  rw [hq]

theorem handlePlaybackUpdate_noRoom_eq {s : ServerState} {roomCode userId username : String}
    {ct : Int} {ip : Bool} {et : String} (now : Nat)
    (hget : alistGet s.rooms roomCode = none) :
    handlePlaybackUpdate s roomCode userId username ct ip et now = (s, []) := by
  unfold handlePlaybackUpdate
  rw [hget]

theorem handlePlaybackUpdate_found_eq {s : ServerState} {roomCode userId username : String}
    {ct : Int} {ip : Bool} {et : String} {room : Room} (now : Nat)
    (hget : alistGet s.rooms roomCode = some room) :
    handlePlaybackUpdate s roomCode userId username ct ip et now =
      ({ s with
          rooms := alistSet s.rooms roomCode (playbackRoom room ct ip ⟨userId, ct, ip, now⟩)
          pbLog := s.pbLog ++ [(room.rid, ⟨userId, ct, ip, now⟩)] },
       broadcastToRoom
         (alistSet s.rooms roomCode (playbackRoom room ct ip ⟨userId, ct, ip, now⟩))
         s.sockets roomCode
         (Frame.playbackUpd userId username (if et = "" then "update" else et) ct ip now)
         (Exclude.byUser userId)) := by
  unfold handlePlaybackUpdate playbackRoom
  rw [hget]

theorem leaveRoom_promote_eq {rs : List (String × Room)} {socks : List Nat}
    {roomCode userId username : String} {room : Room} {participant newHost : Participant}
    {rest : List Participant} (now : Nat)
    (hget : alistGet rs roomCode = some room)
    (hpart : participantsGet room.participants userId = some participant)
    (hhost : participant.isHost = true)
    (hrem : participantsDelete room.participants userId = newHost :: rest) :
    leaveRoom rs socks roomCode userId username now =
      (alistSet rs roomCode (promotedRoom room newHost rest),
       broadcastToRoom (alistSet rs roomCode (promotedRoom room newHost rest)) socks roomCode
         (Frame.systemMessage (newHost.username ++ " es ahora el anfitrión") now)
         Exclude.noneEx,
       true) := by
  unfold leaveRoom promotedRoom
  rw [hget]
  dsimp only
  rw [hpart]
  dsimp only
  rw [hrem, hhost]

theorem handleLeave_found_eq {s : ServerState} {roomCode userId username : String} {room : Room}
    (now : Nat) (hget : alistGet s.rooms roomCode = some room) :
    handleLeave s roomCode userId username now =
      (let r := leaveRoom s.rooms s.sockets roomCode userId username now
       if r.2.2 then
        ({ s with rooms := r.1 },
         r.2.1 ++ broadcastToRoom r.1 s.sockets roomCode
            (Frame.userLeft userId username now) Exclude.noneEx
          ++ broadcastToRoom r.1 s.sockets roomCode
            (Frame.participantsUpdate (getRoomParticipants r.1 roomCode now)) Exclude.noneEx)
       else ({ s with rooms := r.1 }, r.2.1)) := by
  unfold handleLeave
  rw [hget]

theorem tinv_init (T : Nat) : TInv initState T := by
  constructor <;> intros <;> simp_all [initState]

theorem tinv_of_rooms_sub {s s' : ServerState} {T T' : Nat} (ht : TInv s T) (hTT : T ≤ T')
    (hsub : ∀ cr ∈ s'.rooms, cr ∈ s.rooms) : TInv s' T' := by
  constructor
  · intro cr hcr; exact ht.msgSorted _ (hsub _ hcr)
  · intro cr hcr mm hmm; exact (ht.msgBound _ (hsub _ hcr) mm hmm).trans hTT
  · intro cr hcr; exact ht.pbSorted _ (hsub _ hcr)
  · intro cr hcr ev hev; exact (ht.pbBound _ (hsub _ hcr) ev hev).trans hTT

theorem tinv_roomSet {s s' : ServerState} {T T' : Nat} (ht : TInv s T) (hTT : T ≤ T')
    {code : String} (room' : Room)
    (hs : s'.rooms = alistSet s.rooms code room')
    (hms : (room'.messages.map ChatMsg.timestamp).Pairwise (· ≤ ·))
    (hmb : ∀ mm ∈ room'.messages, mm.timestamp ≤ T')
    (hps : (room'.playbackHistory.map PlaybackEvent.timestamp).Pairwise (· ≤ ·))
    (hpb : ∀ ev ∈ room'.playbackHistory, ev.timestamp ≤ T') : TInv s' T' := by
  have hcases : ∀ cr ∈ s'.rooms, cr = (code, room') ∨ cr ∈ s.rooms := by
    intro cr hcr
    rw [hs] at hcr
    exact mem_alistSet hcr
  constructor
  · intro cr hcr
    rcases hcases cr hcr with h1 | h1
    · rw [h1]; exact hms
    · exact ht.msgSorted _ h1
  · intro cr hcr
    rcases hcases cr hcr with h1 | h1
    · rw [h1]; exact hmb
    · intro mm hmm; exact (ht.msgBound _ h1 mm hmm).trans hTT
  · intro cr hcr
    rcases hcases cr hcr with h1 | h1
    · rw [h1]; exact hps
    · exact ht.pbSorted _ h1
  · intro cr hcr
    rcases hcases cr hcr with h1 | h1
    · rw [h1]; exact hpb
    · intro ev hev; exact (ht.pbBound _ h1 ev hev).trans hTT

theorem joinedRoom_messages (room : Room) (conn : Conn) (ws : Nat) (b : Bool) (now : Nat) :
    (joinedRoom room conn ws b now).messages = room.messages := by
  unfold joinedRoom
  cases b <;> rfl

theorem joinedRoom_playbackHistory (room : Room) (conn : Conn) (ws : Nat) (b : Bool) (now : Nat) :
    (joinedRoom room conn ws b now).playbackHistory = room.playbackHistory := by
  unfold joinedRoom
  cases b <;> rfl

theorem tinv_handleJoinCore {s : ServerState} {T : Nat} (ht : TInv s T) {T' : Nat} (hTT : T ≤ T')
    (ws : Nat) (conn : Conn) (m : JoinMsg) (now : Nat) :
    TInv (handleJoinCore s ws conn m now).1 T' := by
  cases hget : alistGet s.rooms conn.roomCode with
  | none =>
    have hred : (handleJoinCore s ws conn m now).1 = s := by
      unfold handleJoinCore joinRoom
      rw [hget]
    rw [hred]
    exact tinv_of_rooms_sub ht hTT (fun cr hcr => hcr)
  | some room =>
    have hmemroom := alistGet_mem hget
    by_cases hcap : room.max_participants ≤ room.participants.length
    · rw [handleJoinCore_full_eq now hget hcap]
      exact tinv_of_rooms_sub ht hTT (fun cr hcr => hcr)
    · rw [handleJoinCore_ok_state_eq now hget hcap]
      refine tinv_roomSet ht hTT _ rfl ?_ ?_ ?_ ?_
      · rw [joinedRoom_messages]; exact ht.msgSorted _ hmemroom
      · rw [joinedRoom_messages]
        intro mm hmm
        exact (ht.msgBound _ hmemroom mm hmm).trans hTT
      · rw [joinedRoom_playbackHistory]; exact ht.pbSorted _ hmemroom
      · rw [joinedRoom_playbackHistory]
        intro ev hev
        exact (ht.pbBound _ hmemroom ev hev).trans hTT

theorem tinv_handleJoin {s : ServerState} {T : Nat} (ht : TInv s T) {T' : Nat} (hTT : T ≤ T')
    (ws : Nat) (conn : Conn) (m : JoinMsg) (now : Nat) :
    TInv (handleJoin s ws conn m now).1 T' := by
  cases hget : alistGet s.rooms conn.roomCode with
  | none =>
    cases hm : m.create with
    | false =>
      rw [handleJoin_notFound_eq now hget hm]
      exact tinv_of_rooms_sub ht hTT (fun cr hcr => hcr)
    | true =>
      rw [handleJoin_create_eq now hget hm]
      refine tinv_handleJoinCore ?_ (Nat.le_refl T') ws conn m now
      exact tinv_roomSet ht hTT _ rfl (by simp) (by simp) (by simp) (by simp)
  | some room =>
    cases hpriv : room.is_private && !m.create with
    | true =>
      rw [handleJoin_private_eq now hget hpriv]
      exact tinv_of_rooms_sub ht hTT (fun cr hcr => hcr)
    | false =>
      rw [handleJoin_core_eq now hget hpriv]
      exact tinv_handleJoinCore ht hTT ws conn m now

theorem tinv_handleChatMessage {s : ServerState} {T : Nat} (ht : TInv s T)
    (roomCode userId username text : String) {now : Nat} (hT : T ≤ now) :
    TInv (handleChatMessage s roomCode userId username text now).1 now := by
  cases hget : alistGet s.rooms roomCode with
  | none =>
    rw [handleChatMessage_noRoom_eq now hget]
    exact tinv_of_rooms_sub ht hT (fun cr hcr => hcr)
  | some room =>
    have hmemroom := alistGet_mem hget
    by_cases htrim : jsTrim text = ""
    · rw [handleChatMessage_empty_eq now hget htrim]
      exact tinv_of_rooms_sub ht hT (fun cr hcr => hcr)
    · cases hq : participantsGet room.participants userId with
      | none =>
        rw [handleChatMessage_noPart_eq now hget htrim hq]
        exact tinv_of_rooms_sub ht hT (fun cr hcr => hcr)
      | some q =>
        rw [handleChatMessage_found_eq now hget htrim hq]
        have happsorted : ((room.messages ++
            [(⟨room.lastMessageId + 1, userId, username, jsTrim text, now⟩ : ChatMsg)]).map
              ChatMsg.timestamp).Pairwise (· ≤ ·) := by
          rw [List.map_append]
          rw [List.pairwise_append]
          refine ⟨ht.msgSorted _ hmemroom, List.pairwise_singleton _ _, ?_⟩
          intro a ha b hb
          simp only [List.map_cons, List.map_nil, List.mem_singleton] at hb
          rcases List.mem_map.mp ha with ⟨mm, hmm, hmma⟩
          rw [hb, ← hmma]
          exact (ht.msgBound _ hmemroom mm hmm).trans hT
        have happbound : ∀ mm ∈ room.messages ++
            [(⟨room.lastMessageId + 1, userId, username, jsTrim text, now⟩ : ChatMsg)],
            mm.timestamp ≤ now := by
          intro mm hmm
          rcases List.mem_append.mp hmm with h1 | h1
          · exact (ht.msgBound _ hmemroom mm h1).trans hT
          · rw [List.mem_singleton.mp h1]
        refine tinv_roomSet ht hT _ rfl ?_ ?_ ?_ ?_
        · show ((if 200 < (room.messages ++
              [(⟨room.lastMessageId + 1, userId, username, jsTrim text, now⟩ : ChatMsg)]).length
            then lastN 200 (room.messages ++
              [⟨room.lastMessageId + 1, userId, username, jsTrim text, now⟩])
            else room.messages ++
              [⟨room.lastMessageId + 1, userId, username, jsTrim text, now⟩]).map
                ChatMsg.timestamp).Pairwise (· ≤ ·)
          by_cases hlen : 200 < (room.messages ++
              [(⟨room.lastMessageId + 1, userId, username, jsTrim text, now⟩ : ChatMsg)]).length
          · rw [if_pos hlen]
            unfold lastN
            exact happsorted.sublist ((List.drop_suffix _ _).sublist.map ChatMsg.timestamp)
          · rw [if_neg hlen]
            exact happsorted
        · show ∀ mm ∈ (if 200 < (room.messages ++
              [(⟨room.lastMessageId + 1, userId, username, jsTrim text, now⟩ : ChatMsg)]).length
            then lastN 200 (room.messages ++
              [⟨room.lastMessageId + 1, userId, username, jsTrim text, now⟩])
            else room.messages ++
              [⟨room.lastMessageId + 1, userId, username, jsTrim text, now⟩]),
            mm.timestamp ≤ now
          intro mm hmm
          refine happbound mm ?_
          by_cases hlen : 200 < (room.messages ++
              [(⟨room.lastMessageId + 1, userId, username, jsTrim text, now⟩ : ChatMsg)]).length
          · rw [if_pos hlen] at hmm
            unfold lastN at hmm
            exact List.drop_subset _ _ hmm
          · rw [if_neg hlen] at hmm
            exact hmm
        · show ((room.playbackHistory).map PlaybackEvent.timestamp).Pairwise (· ≤ ·)
          exact ht.pbSorted _ hmemroom
        · show ∀ ev ∈ room.playbackHistory, ev.timestamp ≤ now
          intro ev hev
          exact (ht.pbBound _ hmemroom ev hev).trans hT

theorem tinv_handlePlaybackUpdate {s : ServerState} {T : Nat} (ht : TInv s T)
    (roomCode userId username : String) (ct : Int) (ip : Bool) (et : String)
    {now : Nat} (hT : T ≤ now) :
    TInv (handlePlaybackUpdate s roomCode userId username ct ip et now).1 now := by
  cases hget : alistGet s.rooms roomCode with
  | none =>
    rw [handlePlaybackUpdate_noRoom_eq now hget]
    exact tinv_of_rooms_sub ht hT (fun cr hcr => hcr)
  | some room =>
    have hmemroom := alistGet_mem hget
    rw [handlePlaybackUpdate_found_eq now hget]
    have happsorted : ((room.playbackHistory ++
        [(⟨userId, ct, ip, now⟩ : PlaybackEvent)]).map
          PlaybackEvent.timestamp).Pairwise (· ≤ ·) := by
      rw [List.map_append]
      rw [List.pairwise_append]
      refine ⟨ht.pbSorted _ hmemroom, List.pairwise_singleton _ _, ?_⟩
      intro a ha b hb
      simp only [List.map_cons, List.map_nil, List.mem_singleton] at hb
      rcases List.mem_map.mp ha with ⟨ev, hev, heva⟩
      rw [hb, ← heva]
      exact (ht.pbBound _ hmemroom ev hev).trans hT
    have happbound : ∀ ev ∈ room.playbackHistory ++
        [(⟨userId, ct, ip, now⟩ : PlaybackEvent)], ev.timestamp ≤ now := by
      intro ev hev
      rcases List.mem_append.mp hev with h1 | h1
      · exact (ht.pbBound _ hmemroom ev h1).trans hT
      · rw [List.mem_singleton.mp h1]
    refine tinv_roomSet ht hT _ rfl ?_ ?_ ?_ ?_
    · show ((room.messages).map ChatMsg.timestamp).Pairwise (· ≤ ·)
      exact ht.msgSorted _ hmemroom
    · show ∀ mm ∈ room.messages, mm.timestamp ≤ now
      intro mm hmm
      exact (ht.msgBound _ hmemroom mm hmm).trans hT
    · show ((if 50 < (room.playbackHistory ++
          [(⟨userId, ct, ip, now⟩ : PlaybackEvent)]).length
        then lastN 50 (room.playbackHistory ++ [⟨userId, ct, ip, now⟩])
        else room.playbackHistory ++ [⟨userId, ct, ip, now⟩]).map
          PlaybackEvent.timestamp).Pairwise (· ≤ ·)
      by_cases hlen : 50 < (room.playbackHistory ++
          [(⟨userId, ct, ip, now⟩ : PlaybackEvent)]).length
      · rw [if_pos hlen]
        unfold lastN
        exact happsorted.sublist ((List.drop_suffix _ _).sublist.map PlaybackEvent.timestamp)
      · rw [if_neg hlen]
        exact happsorted
    · show ∀ ev ∈ (if 50 < (room.playbackHistory ++
          [(⟨userId, ct, ip, now⟩ : PlaybackEvent)]).length
        then lastN 50 (room.playbackHistory ++ [⟨userId, ct, ip, now⟩])
        else room.playbackHistory ++ [⟨userId, ct, ip, now⟩]), ev.timestamp ≤ now
      intro ev hev
      refine happbound ev ?_
      by_cases hlen : 50 < (room.playbackHistory ++
          [(⟨userId, ct, ip, now⟩ : PlaybackEvent)]).length
      · rw [if_pos hlen] at hev
        unfold lastN at hev
        exact List.drop_subset _ _ hev
      · rw [if_neg hlen] at hev
        exact hev

theorem tinv_leaveRoom_rooms {s s' : ServerState} {T T' : Nat} (ht : TInv s T) (hTT : T ≤ T')
    (socks : List Nat) (roomCode userId username : String) (now : Nat)
    (hr : s'.rooms = (leaveRoom s.rooms socks roomCode userId username now).1) :
    TInv s' T' := by
  cases hget : alistGet s.rooms roomCode with
  | none =>
    refine tinv_of_rooms_sub ht hTT ?_
    intro cr hcr
    rw [hr] at hcr
    unfold leaveRoom at hcr
    rw [hget] at hcr
    exact hcr
  | some room =>
    have hmemroom := alistGet_mem hget
    cases hpart : participantsGet room.participants userId with
    | none =>
      refine tinv_of_rooms_sub ht hTT ?_
      intro cr hcr
      rw [hr] at hcr
      unfold leaveRoom at hcr
      rw [hget] at hcr
      dsimp only at hcr
      rw [hpart] at hcr
      exact hcr
    | some participant =>
      cases hrem : participantsDelete room.participants userId with
      | nil =>
        have hr' : s'.rooms =
            alistSet s.rooms roomCode { room with participants := [] } := by
          rw [hr]
          unfold leaveRoom
          rw [hget]
          dsimp only
          rw [hpart]
          dsimp only
          rw [hrem]
        refine tinv_roomSet ht hTT _ hr' (ht.msgSorted _ hmemroom) ?_
          (ht.pbSorted _ hmemroom) ?_
        · intro mm hmm; exact (ht.msgBound _ hmemroom mm hmm).trans hTT
        · intro ev hev; exact (ht.pbBound _ hmemroom ev hev).trans hTT
      | cons newHost rest =>
        cases hhost : participant.isHost with
        | false =>
          have hr' : s'.rooms =
              alistSet s.rooms roomCode { room with participants := newHost :: rest } := by
            rw [hr]
            unfold leaveRoom
            rw [hget]
            dsimp only
            rw [hpart]
            dsimp only
            rw [hrem, hhost]
          refine tinv_roomSet ht hTT _ hr' (ht.msgSorted _ hmemroom) ?_
            (ht.pbSorted _ hmemroom) ?_
          · intro mm hmm; exact (ht.msgBound _ hmemroom mm hmm).trans hTT
          · intro ev hev; exact (ht.pbBound _ hmemroom ev hev).trans hTT
        | true =>
          have hr' : s'.rooms = alistSet s.rooms roomCode (promotedRoom room newHost rest) := by
            rw [hr]
            rw [leaveRoom_promote_eq now hget hpart hhost hrem]
          refine tinv_roomSet ht hTT _ hr' (ht.msgSorted _ hmemroom) ?_
            (ht.pbSorted _ hmemroom) ?_
          · intro mm hmm; exact (ht.msgBound _ hmemroom mm hmm).trans hTT
          · intro ev hev; exact (ht.pbBound _ hmemroom ev hev).trans hTT

theorem tinv_stepS {s : ServerState} {T : Nat} (ht : TInv s T) {e : Event} {t : Nat}
    (het : eventTime e = some t) (hTt : T ≤ t) : TInv (stepS s e).1 t := by
  cases e with
  | wconnect ws roomParam userParam usernameParam now =>
    unfold stepS
    dsimp only
    by_cases hval : jsToUpperCase roomParam = "" ∨ userParam = ""
    · rw [if_pos hval]; exact tinv_of_rooms_sub ht hTt (fun cr hcr => hcr)
    · rw [if_neg hval]; exact tinv_of_rooms_sub ht hTt (fun cr hcr => hcr)
  | wjoin ws m now =>
    have hnow : t = now := by simpa [eventTime] using het.symm
    rw [hnow] at hTt ⊢
    unfold stepS
    dsimp only
    cases hc : alistGet s.connections ws with
    | none => exact tinv_of_rooms_sub ht hTt (fun cr hcr => hcr)
    | some conn => exact tinv_handleJoin ht hTt ws conn m now
  | wchat ws text now =>
    have hnow : t = now := by simpa [eventTime] using het.symm
    rw [hnow] at hTt ⊢
    unfold stepS
    dsimp only
    cases hc : alistGet s.connections ws with
    | none => exact tinv_of_rooms_sub ht hTt (fun cr hcr => hcr)
    | some conn => exact tinv_handleChatMessage ht conn.roomCode conn.userId conn.username text hTt
  | wplayback ws ct ip et now =>
    have hnow : t = now := by simpa [eventTime] using het.symm
    rw [hnow] at hTt ⊢
    unfold stepS
    dsimp only
    cases hc : alistGet s.connections ws with
    | none => exact tinv_of_rooms_sub ht hTt (fun cr hcr => hcr)
    | some conn =>
      exact tinv_handlePlaybackUpdate ht conn.roomCode conn.userId conn.username ct ip et hTt
  | wsync ws now =>
    unfold stepS
    dsimp only
    cases hc : alistGet s.connections ws with
    | none => exact tinv_of_rooms_sub ht hTt (fun cr hcr => hcr)
    | some conn => exact tinv_of_rooms_sub ht hTt (fun cr hcr => hcr)
  | wparticipants ws now =>
    unfold stepS
    dsimp only
    cases hc : alistGet s.connections ws with
    | none => exact tinv_of_rooms_sub ht hTt (fun cr hcr => hcr)
    | some conn => exact tinv_of_rooms_sub ht hTt (fun cr hcr => hcr)
  | wleave ws now =>
    unfold stepS
    dsimp only
    cases hc : alistGet s.connections ws with
    | none => exact tinv_of_rooms_sub ht hTt (fun cr hcr => hcr)
    | some conn =>
      cases hget : alistGet s.rooms conn.roomCode with
      | none =>
        have hred : (handleLeave s conn.roomCode conn.userId conn.username now).1 = s := by
          unfold handleLeave
          rw [hget]
        rw [hred]
        exact tinv_of_rooms_sub ht hTt (fun cr hcr => hcr)
      | some room =>
        have hred : (handleLeave s conn.roomCode conn.userId conn.username now).1 =
            { s with rooms :=
              (leaveRoom s.rooms s.sockets conn.roomCode conn.userId conn.username now).1 } := by
          unfold handleLeave
          rw [hget]
          dsimp only
          split <;> rfl
        rw [hred]
        exact tinv_leaveRoom_rooms ht hTt s.sockets conn.roomCode conn.userId conn.username now rfl
  | wclose ws now =>
    cases hc : alistGet s.connections ws with
    | none =>
      have hred : (closeHandler s ws now).1 =
          { s with sockets := s.sockets.filter (fun w => !(w == ws)) } := by
        unfold closeHandler
        rw [hc]
      rw [show stepS s (Event.wclose ws now) = closeHandler s ws now from rfl, hred]
      exact tinv_of_rooms_sub ht hTt (fun cr hcr => hcr)
    | some ci =>
      have hred : (closeHandler s ws now).1 = { s with
          rooms := (leaveRoom s.rooms (s.sockets.filter (fun w => !(w == ws)))
            ci.roomCode ci.userId ci.username now).1
          connections := alistDelete s.connections ws
          sockets := s.sockets.filter (fun w => !(w == ws)) } := by
        unfold closeHandler
        rw [hc]
        dsimp only
        split
        · split <;> rfl
        · rfl
      rw [show stepS s (Event.wclose ws now) = closeHandler s ws now from rfl, hred]
      exact tinv_leaveRoom_rooms ht hTt _ ci.roomCode ci.userId ci.username now rfl
  | wpong ws now =>
    exact tinv_of_rooms_sub ht hTt (fun cr hcr => hcr)
  | wheartbeat now =>
    exact tinv_of_rooms_sub ht hTt (fun cr hcr => hcr)
  | wdeferredDelete code => simp [eventTime] at het
  | wsweep now =>
    refine tinv_of_rooms_sub ht hTt ?_
    intro cr hcr
    exact (List.mem_filter.mp hcr).1

theorem tinv_stepS_none {s : ServerState} {T : Nat} (ht : TInv s T) {e : Event}
    (het : eventTime e = none) : TInv (stepS s e).1 T := by
  cases e <;> try simp [eventTime] at het
  case wdeferredDelete code =>
    unfold stepS
    dsimp only
    cases hget : alistGet s.rooms code with
    | none => exact tinv_of_rooms_sub ht (Nat.le_refl T) (fun cr hcr => hcr)
    | some room =>
      dsimp only
      by_cases hemp : room.participants.isEmpty
      · rw [if_pos hemp]
        refine tinv_of_rooms_sub ht (Nat.le_refl T) ?_
        intro cr hcr
        exact (List.mem_filter.mp hcr).1
      · rw [if_neg hemp]
        exact tinv_of_rooms_sub ht (Nat.le_refl T) (fun cr hcr => hcr)

theorem tinv_run_aux (es : List Event) : ∀ (s : ServerState) (T : Nat),
    TInv s T → timesFromB T es = true →
    ∃ T', TInv (es.foldl (fun s e => (stepS s e).1) s) T' := by
  induction es with
  | nil => intro s T ht _; exact ⟨T, ht⟩
  | cons e t ih =>
    intro s T ht htimes
    unfold timesFromB at htimes
    cases het : eventTime e with
    | none =>
      rw [het] at htimes
      exact ih _ T (tinv_stepS_none ht het) htimes
    | some te =>
      rw [het] at htimes
      rcases Bool.and_eq_true_iff.mp htimes with ⟨hle, htimes'⟩
      exact ih _ te (tinv_stepS ht het (by exact of_decide_eq_true hle)) htimes'

theorem tinv_run (es : List Event) (h : timesFromB 0 es = true) :
    ∃ T', TInv (run es) T' :=
  tinv_run_aux es initState 0 (tinv_init 0) h

/-- Claim C1, amended: in every reachable state, any participant whose
user id equals the room's `host_user_id` carries the host flag. (The
original claim — exactly one host-flagged participant per non-empty
room, matching `host_user_id` — fails: see `c1_counterexample`.) -/

theorem c1_host_flag_amended (s : ServerState) (h : Reachable s) :
    ∀ cr ∈ s.rooms, ∀ p ∈ cr.2.participants,
      p.userId = cr.2.host_user_id → p.isHost = true :=
  (inv_reachable h).hostFlag

theorem c1_host_flag_witness :
    Reachable (run rejoinTrace) ∧
    ∀ cr ∈ (run rejoinTrace).rooms, ∀ p ∈ cr.2.participants,
      p.userId = cr.2.host_user_id → p.isHost = true :=
  ⟨⟨rejoinTrace, rfl⟩, c1_host_flag_amended (run rejoinTrace) ⟨rejoinTrace, rfl⟩⟩

/-- Claim C2, amended: a `create:true` join of an existing (non-private
or created) room with free capacity is admitted, but the flag is not
ignored — the joiner is marked host and the room's `host_user_id` and
`host_username` are reassigned to the joiner; the participant map gains
the joiner and every other room field is unchanged. -/

theorem c2_create_on_existing_amended (s : ServerState) (ws : Nat) (conn : Conn)
    (m : JoinMsg) (now : Nat) (room : Room)
    (hc : alistGet s.connections ws = some conn)
    (hr : alistGet s.rooms conn.roomCode = some room)
    (hm : m.create = true)
    (hcap : room.participants.length < room.max_participants) :
    alistGet (stepS s (Event.wjoin ws m now)).1.rooms conn.roomCode =
      some { room with
        host_user_id := conn.userId
        host_username := conn.username
        participants := participantsSet room.participants
          ⟨ws, conn.userId, conn.username, now, now, true⟩ } := by
  rw [wjoin_step_eq m now hc]
  have hpriv : (room.is_private && !m.create) = false := by
    rw [hm]; simp
  rw [handleJoin_core_eq now hr hpriv]
  have hcap' : ¬ room.max_participants ≤ room.participants.length := Nat.not_le.mpr hcap
  rw [handleJoinCore_ok_state_eq now hr hcap']
  show alistGet (alistSet s.rooms conn.roomCode (joinedRoom room conn ws m.create now))
    conn.roomCode = _
  rw [alistGet_set_self]
  congr 1
  simp [joinedRoom, hm]

theorem c2_create_on_existing_witness :
    alistGet (stepS (run (twoCreateTrace.take 3)) (Event.wjoin 2 joinCreateMsg 3)).1.rooms "R" =
      some { roomAfterCreate with
        host_user_id := "2"
        host_username := "Bob"
        participants := participantsSet roomAfterCreate.participants
          ⟨2, "2", "Bob", 3, 3, true⟩ } :=
  c2_create_on_existing_amended (run (twoCreateTrace.take 3)) 2 bobConn joinCreateMsg 3
    roomAfterCreate (by decide) (by decide) (by decide) (by decide)

/-- Claim C5, amended: a `playback_update` from any connection naming an
existing room is applied — the room's position, playing flag and
playback history are rewritten and a `playback_update` frame goes to
every open participant other than the sender — whether or not the sender
is a participant. (The claimed refusal for non-participants does not
exist: see `c5_counterexample`.) -/

theorem c5_playback_amended (s : ServerState) (ws : Nat) (conn : Conn)
    (ct : Int) (ip : Bool) (et : String) (now : Nat) (room : Room)
    (hc : alistGet s.connections ws = some conn)
    (hr : alistGet s.rooms conn.roomCode = some room) :
    alistGet (stepS s (Event.wplayback ws ct ip et now)).1.rooms conn.roomCode =
      some (playbackRoom room ct ip ⟨conn.userId, ct, ip, now⟩) ∧
    (∀ p ∈ room.participants, p.wsId ∈ s.sockets → (conn.userId == p.userId) = false →
      (p.wsId, Frame.playbackUpd conn.userId conn.username
        (if et = "" then "update" else et) ct ip now) ∈
        (stepS s (Event.wplayback ws ct ip et now)).2) ∧
    (∀ w g, (w, g) ∈ (stepS s (Event.wplayback ws ct ip et now)).2 →
      ∃ p ∈ room.participants, p.wsId = w ∧ (conn.userId == p.userId) = false) := by
  rw [wplayback_step_eq ct ip et now hc, handlePlaybackUpdate_found_eq now hr]
  refine ⟨?_, ?_, ?_⟩
  · show alistGet (alistSet s.rooms conn.roomCode
      (playbackRoom room ct ip ⟨conn.userId, ct, ip, now⟩)) conn.roomCode = _
    rw [alistGet_set_self]
  · intro p hp hopen hne
    exact mem_broadcastToRoom (alistGet_set_self _ _ _) hp hne (by simpa using hopen)
  · intro w g hwg
    obtain ⟨hg, p, hp, hpw, hex⟩ := broadcastToRoom_origin (alistGet_set_self _ _ _) hwg
    exact ⟨p, hp, hpw, hex⟩

theorem c5_playback_witness :
    alistGet (stepS (run strangerTrace) (Event.wplayback 2 42 true "play" 3)).1.rooms "R" =
      some (playbackRoom strangerRoom 42 true ⟨"2", 42, true, 3⟩) :=
  (c5_playback_amended (run strangerTrace) 2 strangerConn 42 true "play" 3 strangerRoom
    (by decide) (by decide)).1

/-- Claim C6, amended: a join of a full room is refused and the room is
left unchanged, but the error message depends on the gating order: an
existing private room joined without `create` is refused with the
privacy error before capacity is checked; otherwise the error is
"La sala está llena". -/

theorem c6_full_room_amended (s : ServerState) (ws : Nat) (conn : Conn)
    (m : JoinMsg) (now : Nat) (room : Room)
    (hc : alistGet s.connections ws = some conn)
    (hr : alistGet s.rooms conn.roomCode = some room)
    (hfull : room.max_participants ≤ room.participants.length) :
    (stepS s (Event.wjoin ws m now)).1 = s ∧
    (stepS s (Event.wjoin ws m now)).2 =
      [(ws, Frame.errorF (if room.is_private && !m.create then
        "Esta sala es privada. Necesitas una invitación para unirte."
        else "La sala está llena"))] := by
  rw [wjoin_step_eq m now hc]
  cases hpriv : room.is_private && !m.create with
  | true =>
    rw [handleJoin_private_eq now hr hpriv]
    exact ⟨rfl, by simp [hpriv]⟩
  | false =>
    rw [handleJoin_core_eq now hr hpriv, handleJoinCore_full_eq now hr hfull]
    exact ⟨rfl, by simp [hpriv]⟩

theorem c6_full_room_witness :
    (stepS (run privFullTrace) (Event.wjoin 2 joinPlainMsg 3)).1 = run privFullTrace ∧
    (stepS (run privFullTrace) (Event.wjoin 2 joinPlainMsg 3)).2 =
      [(2, Frame.errorF (if privRoom.is_private && !joinPlainMsg.create then
        "Esta sala es privada. Necesitas una invitación para unirte."
        else "La sala está llena"))] :=
  c6_full_room_amended (run privFullTrace) 2 privConn joinPlainMsg 3 privRoom
    (by decide) (by decide) (by decide)

/-- Claim C8, amended: when the departing participant carries the host
flag and participants remain, the FIRST remaining participant in the
participant map's insertion order is promoted (which coincides with the
earliest `joined_at` only when nobody re-joined and timestamps differ;
no user-id tie-break exists); the room's host fields are updated to that
participant and a system_message announcing the transition is delivered
to every remaining open participant. -/

theorem c8_succession_amended (s : ServerState) (ws : Nat) (conn : Conn) (now : Nat)
    (room : Room) (participant newHost : Participant) (rest : List Participant)
    (hc : alistGet s.connections ws = some conn)
    (hr : alistGet s.rooms conn.roomCode = some room)
    (hp : participantsGet room.participants conn.userId = some participant)
    (hhost : participant.isHost = true)
    (hrem : participantsDelete room.participants conn.userId = newHost :: rest) :
    alistGet (stepS s (Event.wleave ws now)).1.rooms conn.roomCode =
      some (promotedRoom room newHost rest) ∧
    (promotedRoom room newHost rest).host_user_id = newHost.userId ∧
    (promotedRoom room newHost rest).host_username = newHost.username ∧
    (∀ q ∈ (promotedRoom room newHost rest).participants, q.wsId ∈ s.sockets →
      (q.wsId, Frame.systemMessage (newHost.username ++ " es ahora el anfitrión") now) ∈
        (stepS s (Event.wleave ws now)).2) := by
  rw [wleave_step_eq now hc, handleLeave_found_eq now hr]
  rw [leaveRoom_promote_eq now hr hp hhost hrem]
  dsimp only
  refine ⟨?_, rfl, rfl, ?_⟩
  · show alistGet (alistSet s.rooms conn.roomCode (promotedRoom room newHost rest))
      conn.roomCode = _
    rw [alistGet_set_self]
  · intro q hq hopen
    apply List.mem_append_left
    apply List.mem_append_left
    exact mem_broadcastToRoom (alistGet_set_self _ _ _) hq rfl (by simpa using hopen)

theorem c8_succession_witness :
    alistGet (stepS (run (rejoinTrace.take 7)) (Event.wleave 1 8)).1.rooms "R" =
      some (promotedRoom preLeaveRoom ⟨2, "2", "B", 7, 7, false⟩ [⟨3, "3", "C", 5, 5, false⟩]) ∧
    (promotedRoom preLeaveRoom ⟨2, "2", "B", 7, 7, false⟩
      [⟨3, "3", "C", 5, 5, false⟩]).host_user_id = "2" :=
  ⟨(c8_succession_amended (run (rejoinTrace.take 7)) 1 hostConn 8 preLeaveRoom
      ⟨1, "1", "A", 1, 1, true⟩ ⟨2, "2", "B", 7, 7, false⟩ [⟨3, "3", "C", 5, 5, false⟩]
      (by decide) (by decide) (by decide) (by decide) (by decide)).1,
   (c8_succession_amended (run (rejoinTrace.take 7)) 1 hostConn 8 preLeaveRoom
      ⟨1, "1", "A", 1, 1, true⟩ ⟨2, "2", "B", 7, 7, false⟩ [⟨3, "3", "C", 5, 5, false⟩]
      (by decide) (by decide) (by decide) (by decide) (by decide)).2.1⟩

/-- Claim C7: a `chat_message` from a participant whose body is non-empty
after trimming appends a message carrying the trimmed body and the id
`lastMessageId + 1` — strictly greater than every id in the history and
every id the room instance ever emitted, the first being 1 — evicting
the oldest entry past 200, and the `chat_message` frame is delivered to
every participant whose transport is open, the sender included (no
exclusion is applied); a body that is empty after trimming leaves the
state unchanged and sends nothing. -/

theorem c7_chat_message (es : List Event) (ws : Nat) (text : String) (now : Nat)
    (conn : Conn) (room : Room) (q : Participant)
    (hc : alistGet (run es).connections ws = some conn)
    (hr : alistGet (run es).rooms conn.roomCode = some room)
    (hq : participantsGet room.participants conn.userId = some q) :
    (jsTrim text = "" → stepS (run es) (Event.wchat ws text now) = (run es, [])) ∧
    (jsTrim text ≠ "" →
      alistGet (stepS (run es) (Event.wchat ws text now)).1.rooms conn.roomCode =
        some (chatRoom room (chatMsgOf room conn text now)) ∧
      (chatMsgOf room conn text now).message = jsTrim text ∧
      (chatMsgOf room conn text now).id = room.lastMessageId + 1 ∧
      (room.lastMessageId = 0 → (chatMsgOf room conn text now).id = 1) ∧
      (∀ mm ∈ room.messages, mm.id < (chatMsgOf room conn text now).id) ∧
      (∀ e ∈ (run es).chatLog, e.1 = room.rid → e.2.id < (chatMsgOf room conn text now).id) ∧
      (∀ p ∈ room.participants, p.wsId ∈ (run es).sockets →
        (p.wsId, Frame.chatMessageF (chatMsgOf room conn text now)) ∈
          (stepS (run es) (Event.wchat ws text now)).2)) := by
  have hinv := inv_run es
  have hmemroom := alistGet_mem hr
  constructor
  · intro htrim
    rw [wchat_step_eq text now hc, handleChatMessage_empty_eq now hr htrim]
  · intro htrim
    rw [wchat_step_eq text now hc, handleChatMessage_found_eq now hr htrim hq]
    refine ⟨?_, rfl, rfl, ?_, ?_, ?_, ?_⟩
    · show alistGet (alistSet (run es).rooms conn.roomCode
        (chatRoom room (chatMsgOf room conn text now))) conn.roomCode = _
      rw [alistGet_set_self]
    · intro h0
      show room.lastMessageId + 1 = 1
      rw [h0]
    · intro mm hmm
      exact Nat.lt_succ_of_le (hinv.msgBound _ hmemroom mm hmm)
    · intro e he hrid
      exact Nat.lt_succ_of_le (hinv.logBound _ hmemroom e he hrid)
    · intro p hp hopen
      exact mem_broadcastToRoom (alistGet_set_self _ _ _) hp rfl (by simpa using hopen)

theorem c7_chat_message_witness :
    jsTrim " hola " ≠ "" ∧
    alistGet (stepS (run pongTrace) (Event.wchat 1 " hola " 9)).1.rooms "R" =
      some (chatRoom soloRoom (chatMsgOf soloRoom soloConn " hola " 9)) ∧
    (chatMsgOf soloRoom soloConn " hola " 9).id = 1 ∧
    (1, Frame.chatMessageF (chatMsgOf soloRoom soloConn " hola " 9)) ∈
      (stepS (run pongTrace) (Event.wchat 1 " hola " 9)).2 := by
  have h := (c7_chat_message pongTrace 1 " hola " 9 soloConn soloRoom ⟨1, "1", "A", 1, 1, true⟩
    (by decide) (by decide) (by decide)).2 (by decide)
  exact ⟨by decide, h.1, h.2.2.2.1 (by decide),
    h.2.2.2.2.2.2 ⟨1, "1", "A", 1, 1, true⟩ (by decide) (by decide)⟩

/-- Claim C9, amended: in every state reachable under a non-decreasing
wall clock, each room's chat history holds at most 200 entries and its
playback history at most 50, each history is a suffix of everything the
room instance ever appended (so eviction removes the oldest entries
first), and timestamps are non-decreasing along each history — not
strictly increasing, since two appends can share a millisecond (see
`c9_counterexample`). -/

theorem c9_histories_amended (es : List Event) (h : timesFromB 0 es = true) :
    ∀ cr ∈ (run es).rooms,
      cr.2.messages.length ≤ 200 ∧
      cr.2.playbackHistory.length ≤ 50 ∧
      (cr.2.messages.map ChatMsg.timestamp).Pairwise (· ≤ ·) ∧
      (cr.2.playbackHistory.map PlaybackEvent.timestamp).Pairwise (· ≤ ·) ∧
      cr.2.messages <:+ logOf (run es).chatLog cr.2.rid ∧
      cr.2.playbackHistory <:+ logOf (run es).pbLog cr.2.rid := by
  obtain ⟨T', ht⟩ := tinv_run es h
  have hi := inv_run es
  intro cr hcr
  exact ⟨hi.msgCap _ hcr, hi.pbCap _ hcr, ht.msgSorted _ hcr, ht.pbSorted _ hcr,
    hi.msgSuffix _ hcr, hi.pbSuffix _ hcr⟩

theorem c9_histories_witness :
    timesFromB 0 sameMsTrace = true ∧
    ∀ cr ∈ (run sameMsTrace).rooms,
      cr.2.messages.length ≤ 200 ∧
      cr.2.playbackHistory.length ≤ 50 ∧
      (cr.2.messages.map ChatMsg.timestamp).Pairwise (· ≤ ·) ∧
      (cr.2.playbackHistory.map PlaybackEvent.timestamp).Pairwise (· ≤ ·) ∧
      cr.2.messages <:+ logOf (run sameMsTrace).chatLog cr.2.rid ∧
      cr.2.playbackHistory <:+ logOf (run sameMsTrace).pbLog cr.2.rid :=
  ⟨by decide, c9_histories_amended sameMsTrace (by decide)⟩

end WatchParty

namespace ChatServer

/-- Claim C3, counterexample: the receiver (user 2) is online with the
session set `{1, 2}`, yet the `private_message` frame is delivered only
to socket 2 — the one recorded in `onlineUsers` by the most recent
connection — and socket 1 receives nothing. -/

theorem c3_counterexample :
    alistGet (crun multiSessionTrace).userSockets 2 = some [1, 2] ∧
    (alistGet (crun multiSessionTrace).onlineUsers 2).isSome = true ∧
    (cstep (crun multiSessionTrace)
      (CEvent.cpriv 3 2 "hola" none 7 true 100)).2.map Prod.fst = [2] := by decide

/-- Claim C3, amended: when the receiver is in the online-user registry,
the `private_message` frame — stamped with the store-assigned id — is
sent only to the single session recorded there (the most recently
connected one), not to every session of the receiver's session set (see
`c3_counterexample`); an offline receiver gets nothing. -/

theorem c3_private_message_amended (s : CState) (ws : Nat) (c : ChatConn)
    (toUid : Int) (text : String) (ts : Option Nat) (mid : Nat) (now : Nat)
    (rec : OnlineUser)
    (hc : alistGet s.conns ws = some c)
    (honline : alistGet s.onlineUsers toUid = some rec) :
    (cstep s (CEvent.cpriv ws toUid text ts mid true now)).2 =
      [(rec.wsId, CFrame.privateMessage c.userId c.username toUid text mid
        (match ts with | some t => if t == 0 then now else t | none => now))] := by
  unfold cstep
  dsimp only
  rw [hc]
  show handlePrivateMessage s c.userId c.username toUid text ts mid now = _
  unfold handlePrivateMessage
  rw [honline]

theorem c3_private_message_witness :
    (cstep (crun multiSessionTrace) (CEvent.cpriv 3 2 "hola" none 7 true 100)).2 =
      [(2, CFrame.privateMessage 1 "S" 2 "hola" 7 100)] :=
  c3_private_message_amended (crun multiSessionTrace) 3 ⟨1, "S"⟩ 2 "hola" none 7 100
    ⟨2, "X", 2⟩ (by decide) (by decide)

/-- Claim C10: on the chat endpoint the `user` query parameter goes
through `parseInt`, and the falsy check rejects both `NaN` and `0`: a
connection whose `user` is `"0"` or non-numeric is closed with
policy-violation code 1008 even though the parameter is present, and a
connection is attached to the presence registries exactly when the
parameter parses to a non-zero integer. -/

theorem c10_user_param_parseint (s : CState) (ws : Nat) (u un : String) :
    ((jsParseInt u = none ∨ jsParseInt u = some 0) →
      (chatConnect s ws u un).2.1 = ConnectOutcome.closed 1008 "ID de usuario requerido" ∧
      (chatConnect s ws u un).1 = s) ∧
    (∀ n : Int, jsParseInt u = some n → n ≠ 0 →
      (chatConnect s ws u un).2.1 = ConnectOutcome.accepted ∧
      (∃ l, alistGet (chatConnect s ws u un).1.userSockets n = some l ∧ ws ∈ l) ∧
      (alistGet (chatConnect s ws u un).1.onlineUsers n).isSome = true) := by
  constructor
  · intro h
    rcases h with h | h
    · unfold chatConnect
      rw [h]
      exact ⟨rfl, rfl⟩
    · unfold chatConnect
      rw [h]
      dsimp only
      rw [if_pos rfl]
      exact ⟨rfl, rfl⟩
  · intro n hn hnz
    unfold chatConnect
    rw [hn]
    dsimp only
    rw [if_neg hnz]
    refine ⟨rfl, ⟨(match alistGet s.userSockets n with
      | none => [ws]
      | some l => if l.contains ws then l else l ++ [ws]), ?_, ?_⟩, ?_⟩
    · show alistGet (alistSet s.userSockets n _) n = some _
      exact alistGet_set_self _ _ _
    · show ws ∈ (match alistGet s.userSockets n with
        | none => [ws]
        | some l => if l.contains ws then l else l ++ [ws])
      cases hgs : alistGet s.userSockets n with
      | none => exact List.mem_singleton.mpr rfl
      | some l =>
        show ws ∈ (if l.contains ws then l else l ++ [ws])
        by_cases hin : l.contains ws
        · rw [if_pos hin]
          simpa using hin
        · rw [if_neg hin]
          exact List.mem_append_right _ (List.mem_singleton.mpr rfl)
    · show (alistGet (alistSet s.onlineUsers n ⟨ws, if un = "" then "Usuario" else un, n⟩)
        n).isSome = true
      rw [alistGet_set_self]
      rfl

theorem c10_user_param_witness :
    ((chatConnect cinit 5 "0" "A").2.1 = ConnectOutcome.closed 1008 "ID de usuario requerido" ∧
     (chatConnect cinit 5 "0" "A").1 = cinit) ∧
    ((chatConnect cinit 6 "abc" "B").2.1 = ConnectOutcome.closed 1008 "ID de usuario requerido" ∧
     (chatConnect cinit 6 "abc" "B").1 = cinit) ∧
    ((chatConnect cinit 7 "42" "C").2.1 = ConnectOutcome.accepted ∧
     (∃ l, alistGet (chatConnect cinit 7 "42" "C").1.userSockets 42 = some l ∧ 7 ∈ l) ∧
     (alistGet (chatConnect cinit 7 "42" "C").1.onlineUsers 42).isSome = true) :=
  ⟨(c10_user_param_parseint cinit 5 "0" "A").1 (Or.inr (by decide)),
   (c10_user_param_parseint cinit 6 "abc" "B").1 (Or.inl (by decide)),
   (c10_user_param_parseint cinit 7 "42" "C").2 42 (by decide) (by decide)⟩

end ChatServer
